import Mathlib

/-!
cool.ng network event sources (GCD back end)

A shallow embedding of `lib/src/async/gcd/event_sources.cpp`: the TCP `server`
and `stream` event sources that sit on top of libdispatch sources.

* Pointers are natural numbers (`nullptr = 0`), file descriptors are integers
  (`invalid_handle = -1`), `std::size_t` values are natural numbers and the
  places where the source computes with them are taken modulo `2 ^ 64`.
* The calls on libdispatch sources, on descriptors (`accept`, `dup`, `read`,
  `write`, `close`), on buffers (`new []`, `delete []`) and the user callbacks
  are appended to the `trace` of the object, in program order.
* Everything the environment decides (results of system calls, whether a weak
  pointer can still be locked, what a user callback does) is an explicit
  argument of the function that consumes it.
-/

namespace cool.ng

/-! ## Basic values -/

/-- Value of `cool::ng::net::invalid_handle`: what `::dup`, `::socket` and
`accept` return on failure (`initialize` compares the result of `::dup` with it). -/
def invalid_handle : Int := -1

/-- The null pointer. -/
def nullptr : Nat := 0

/-- Modulus of `std::size_t` arithmetic. -/
def SIZE_MOD : Nat := 2 ^ 64

/-- The `stream::state` enumeration. -/
inductive state
  | disconnected
  | starting
  | connecting
  | connected
  deriving DecidableEq, Repr

/-- The `cb::stream::event` enumeration. -/
inductive event
  | connected
  | connect_failed
  | disconnected
  deriving DecidableEq, Repr

/-- The exceptions of `cool::ng::exception` raised in this file, and the one
machine fault the code can run into (`m_writer->` on a null `m_writer`). -/
inductive exc
  | illegal_state_not_connected
  | illegal_state_writer_busy
  | illegal_argument
  | runner_not_available
  | operation_failed
  | null_dereference
  deriving DecidableEq, Repr

/-- Both `exc::illegal_state("not connected")` and
`exc::illegal_state("writer busy")` are the `IllegalState` error. -/
def exc.is_illegal_state : exc → Bool
  | exc.illegal_state_not_connected => true
  | exc.illegal_state_writer_busy => true
  | _ => false

/-- Which libdispatch source a call is made on. -/
inductive source_id
  | listener
  | reader
  | writer
  deriving DecidableEq, Repr

/-- Address family of a peer as passed to `on_connect` (`ipv4::host` or `ipv6::host`). -/
inductive ip_version
  | ipv4
  | ipv6
  deriving DecidableEq, Repr

/-- Calls that leave the event source, in the order the code makes them. -/
inductive call
  | dispatch_source_create (src : source_id) (fd : Int)
  | dispatch_resume (src : source_id)
  | dispatch_suspend (src : source_id)
  | dispatch_source_cancel (src : source_id)
  | dispatch_release (src : source_id)
  | close (fd : Int)
  | accept (fd : Int)
  | dup (fd : Int)
  | read (fd : Int) (buf : Nat) (count : Nat)
  | write (fd : Int) (buf : Nat) (count : Nat)
  | new_array (count : Nat)
  | delete_array (ptr : Nat)
  | on_read (buf : Nat) (size : Nat)
  | on_write (data : Nat) (size : Nat)
  | on_event (evt : event)
  | on_connect (fd : Int) (ver : ip_version) (port : Nat)
  deriving DecidableEq, Repr

/-- A call is a stream handler callback: `on_read`, `on_write` or `on_event`. -/
def call.is_callback : call → Bool
  | call.on_read _ _ => true
  | call.on_write _ _ => true
  | call.on_event _ => true
  | _ => false

/-- A call is `on_write`. -/
def call.is_on_write : call → Bool
  | call.on_write _ _ => true
  | _ => false

/-- A call is `::read` or the `on_read` callback. -/
def call.is_read : call → Bool
  | call.read _ _ _ => true
  | call.on_read _ _ => true
  | _ => false

/-- A call is `delete []`. -/
def call.is_delete : call → Bool
  | call.delete_array _ => true
  | _ => false

/-- A call is `::close`. -/
def call.is_close : call → Bool
  | call.close _ => true
  | _ => false

/-- A call is `accept`. -/
def call.is_accept : call → Bool
  | call.accept _ => true
  | _ => false

/-- A call is `on_connect`. -/
def call.is_on_connect : call → Bool
  | call.on_connect _ _ _ => true
  | _ => false

/-! ## libdispatch sources

A source carries a suspension count and a cancellation mark.
`dispatch_source_create` returns a source with count 1 (suspended),
`dispatch_resume` decrements, `dispatch_suspend` increments. The event handler
runs only while the source is neither suspended nor cancelled; the cancel
handler runs once the source is cancelled and not suspended. -/

/-- State of one `dispatch_source_t`. -/
structure dispatch_source where
  suspend_count : Int
  cancelled : Bool
  deriving DecidableEq, Repr

/-- Result of `::dispatch_source_create`: suspended, not cancelled. -/
def dispatch_source_create : dispatch_source :=
  { suspend_count := 1, cancelled := false }

/-- Effect of `::dispatch_resume`. -/
def dispatch_resume (d : dispatch_source) : dispatch_source :=
  { d with suspend_count := d.suspend_count - 1 }

/-- Effect of `::dispatch_suspend`. -/
def dispatch_suspend (d : dispatch_source) : dispatch_source :=
  { d with suspend_count := d.suspend_count + 1 }

/-- Effect of `::dispatch_source_cancel`. -/
def dispatch_source_cancel (d : dispatch_source) : dispatch_source :=
  { d with cancelled := true }

/-- The source is resumed (suspension count zero). -/
def dispatch_source.resumed (d : dispatch_source) : Bool :=
  d.suspend_count == 0

/-- The source is suspended (positive suspension count). -/
def dispatch_source.is_suspended (d : dispatch_source) : Bool :=
  decide (0 < d.suspend_count)

/-- The event handler of the source may run. -/
def dispatch_source.delivers (d : dispatch_source) : Bool :=
  !d.cancelled && d.resumed

/-- The cancel handler of the source may run. -/
def dispatch_source.delivers_cancel (d : dispatch_source) : Bool :=
  d.cancelled && d.resumed

/-! ## Stream -/

/-- The writer `context`: descriptor and its write source. -/
structure context where
  m_handle : Int
  m_source : dispatch_source
  deriving DecidableEq, Repr

/-- The reader `rd_context`: descriptor, read source and the read buffer. -/
structure rd_context where
  m_handle : Int
  m_source : dispatch_source
  m_rd_data : Nat
  m_rd_size : Nat
  m_rd_is_mine : Bool
  deriving DecidableEq, Repr

/-- Fields of `class stream` plus the trace of outgoing calls. -/
structure stream where
  m_state : state
  m_active : Bool
  m_reader : Option rd_context
  m_writer : Option context
  m_wr_busy : Bool
  m_wr_data : Nat
  m_wr_size : Nat
  m_wr_pos : Nat
  m_buf : Nat
  m_size : Nat
  trace : List call
  deriving DecidableEq, Repr

/-- What one invocation of the user's `on_read(buf, size)` leaves behind: it
returns with the two references holding `buf` and `size`, or it throws. -/
inductive on_read_result
  | returns (buf : Nat) (size : Nat)
  | throws
  deriving DecidableEq, Repr

/-- What the environment decides during one callback of a stream. -/
structure env where
  /-- `m_executor.lock()` yields a runner -/
  executor : Bool
  /-- `m_handler.lock()` yields a handler -/
  handler : Bool
  /-- result of `::dup` -/
  dup : Int
  /-- result of `new uint8_t[bufsz_]` -/
  alloc : Nat
  /-- result of `::read` or `::write`, converted to `std::size_t` -/
  xfer : Nat
  /-- behaviour of the user's `on_read` -/
  on_read : on_read_result
  deriving DecidableEq, Repr

/-- Append one outgoing call to the trace. -/
def stream.emit (s : stream) (c : call) : stream :=
  { s with trace := s.trace ++ [c] }

/-- Body of `stream::stream`: the member initialiser list. -/
def stream.ctor : stream :=
  { m_state := state.disconnected
    m_active := true
    m_reader := none
    m_writer := none
    m_wr_busy := false
    m_wr_data := 0
    m_wr_size := 0
    m_wr_pos := 0
    m_buf := 0
    m_size := 0
    trace := [] }

/-- Body of `stream::start` (the resume is commented out in the source). -/
def stream.start (s : stream) : stream :=
  if !s.m_active then { s with m_active := true } else s

/-- Body of `stream::stop` (the suspend is commented out in the source). -/
def stream.stop (s : stream) : stream :=
  if s.m_active then { s with m_active := false } else s

/-- Body of `stream::create_write_source(h_, start_)`. -/
def stream.create_write_source (s : stream) (executor : Bool) (h_ : Int) (start_ : Bool) :
    stream × Option exc :=
  if !executor then (s, some exc.runner_not_available)
  else if h_ = invalid_handle then (s, some exc.illegal_argument)
  else
    let s := s.emit (call.dispatch_source_create source_id.writer h_)
    if start_ then
      ({ s with m_writer := some { m_handle := h_, m_source := dispatch_resume dispatch_source_create } }.emit
          (call.dispatch_resume source_id.writer), none)
    else
      ({ s with m_writer := some { m_handle := h_, m_source := dispatch_source_create } }, none)

/-- Body of `stream::create_read_source(h_, buf_, bufsz_)`; `alloc` is what
`new uint8_t[bufsz_]` returns when it is reached. -/
def stream.create_read_source (s : stream) (executor : Bool) (h_ : Int) (buf_ bufsz_ : Nat)
    (alloc : Nat) : stream × Option exc :=
  if !executor then (s, some exc.runner_not_available)
  else if h_ = invalid_handle then (s, some exc.illegal_argument)
  else
    let s := (s.emit (call.dispatch_source_create source_id.reader h_)).emit
      (call.dispatch_resume source_id.reader)
    let src := dispatch_resume dispatch_source_create
    if buf_ = nullptr then
      ({ s with m_reader := some { m_handle := h_, m_source := src, m_rd_data := alloc,
                                    m_rd_size := bufsz_, m_rd_is_mine := true } }.emit
          (call.new_array bufsz_), none)
    else
      ({ s with m_reader := some { m_handle := h_, m_source := src, m_rd_data := buf_,
                                    m_rd_size := bufsz_, m_rd_is_mine := false } }, none)

/-- Body of `stream::cancel_write_source`. The compare-exchange on `m_wr_busy`
succeeds exactly when the flag was false, and then sets it. -/
def stream.cancel_write_source (s : stream) : stream :=
  match s.m_writer with
  | none => s
  | some w =>
    let s := { s with m_writer := some { w with m_source := dispatch_source_cancel w.m_source } }.emit
      (call.dispatch_source_cancel source_id.writer)
    if s.m_wr_busy then s
    else
      { s with
        m_wr_busy := true
        m_writer := some { w with m_source := dispatch_resume (dispatch_source_cancel w.m_source) } }.emit
        (call.dispatch_resume source_id.writer)

/-- Body of `stream::cancel_read_source`. -/
def stream.cancel_read_source (s : stream) : stream :=
  match s.m_reader with
  | none => s
  | some r =>
    ({ s with m_reader := some { r with m_source := dispatch_source_cancel r.m_source } }.emit
      (call.dispatch_source_cancel source_id.reader)).start

/-- Body of `stream::write(data, size)`. A thrown exception leaves the object
as it was; the second component is the exception, if any. -/
def stream.write (s : stream) (data size : Nat) : stream × Option exc :=
  if s.m_state ≠ state.connected then (s, some exc.illegal_state_not_connected)
  else if s.m_wr_busy then (s, some exc.illegal_state_writer_busy)
  else
    let s := { s with m_wr_busy := true, m_wr_data := data, m_wr_size := size, m_wr_pos := 0 }
    match s.m_writer with
    | none => (s, some exc.null_dereference)
    | some w =>
      ({ s with m_writer := some { w with m_source := dispatch_resume w.m_source } }.emit
        (call.dispatch_resume source_id.writer), none)

/-- Body of `stream::process_write_event(size)`; `e.xfer` is the value of
`::write` stored into the `std::size_t res`. -/
def stream.process_write_event (s : stream) (_size : Nat) (e : env) : stream × Option exc :=
  match s.m_writer with
  | none => (s, some exc.null_dereference)
  | some w =>
    let s := s.emit (call.write w.m_handle (s.m_wr_data + s.m_wr_pos)
      ((s.m_wr_size + SIZE_MOD - s.m_wr_pos) % SIZE_MOD))
    let s := { s with m_wr_pos := (s.m_wr_pos + e.xfer) % SIZE_MOD }
    if s.m_wr_pos ≥ s.m_wr_size then
      let s := { s with m_writer := some { w with m_source := dispatch_suspend w.m_source } }.emit
        (call.dispatch_suspend source_id.writer)
      let s := { s with m_wr_busy := false }
      if e.handler then (s.emit (call.on_write s.m_wr_data s.m_wr_size), none) else (s, none)
    else (s, none)

/-- The test of `stream::process_connect_event` that decides that the connect
failed: `size != 0` under `LINUX_TARGET`, `size <= 2048` otherwise. -/
def connect_failed_pred (linux : Bool) (size : Nat) : Bool :=
  if linux then size != 0 else decide (size ≤ 2048)

/-- Body of `stream::process_connect_event(size)`. -/
def stream.process_connect_event (linux : Bool) (s : stream) (size : Nat) (e : env) :
    stream × Option exc :=
  match s.m_writer with
  | none => (s, some exc.null_dereference)
  | some w =>
    let s := { s with m_writer := some { w with m_source := dispatch_suspend w.m_source } }.emit
      (call.dispatch_suspend source_id.writer)
    if connect_failed_pred linux size then
      let s := { s with m_state := state.disconnected }
      if e.handler then (s.emit (call.on_event event.connect_failed), none) else (s, none)
    else
      let s := s.emit (call.dup w.m_handle)
      match s.create_read_source e.executor e.dup s.m_buf s.m_size e.alloc with
      | (s, some x) => (s, some x)
      | (s, none) =>
        let s := { s with m_state := state.connected }
        if e.handler then (s.emit (call.on_event event.connected), none) else (s, none)

/-- Body of `stream::process_disconnect_event`. -/
def stream.process_disconnect_event (s : stream) (e : env) : stream :=
  let s := { s with m_state := state.disconnected }
  let s := s.cancel_write_source
  let s := s.cancel_read_source
  if e.handler then s.emit (call.on_event event.disconnected) else s

/-- Body of `stream::on_rd_event(ctx)` for the reader context of `s`; `size` is
`dispatch_source_get_data`, `e.xfer` the value of `::read` stored into `size`.
Every exception raised after the read is swallowed by the `catch (...)`. -/
def stream.on_rd_event (s : stream) (size : Nat) (e : env) : stream :=
  match s.m_reader with
  | none => s
  | some r =>
    if size = 0 then s.process_disconnect_event e
    else
      let s := s.emit (call.read r.m_handle r.m_rd_data r.m_rd_size)
      if e.handler then
        let s := s.emit (call.on_read r.m_rd_data e.xfer)
        match e.on_read with
        | on_read_result.throws => s
        | on_read_result.returns buf size =>
          if buf ≠ r.m_rd_data then
            if r.m_rd_is_mine then
              { s.emit (call.delete_array r.m_rd_data) with
                m_reader := some { r with m_rd_is_mine := false, m_rd_data := buf, m_rd_size := size } }
            else
              { s with m_reader := some { r with m_rd_data := buf, m_rd_size := size } }
          else s
      else s

/-- Body of `stream::on_wr_event(ctx)` for the writer context of `s`. -/
def stream.on_wr_event (linux : Bool) (s : stream) (size : Nat) (e : env) : stream × Option exc :=
  match s.m_state with
  | state.starting => s.process_connect_event linux size e
  | state.connecting => s.process_connect_event linux size e
  | state.connected => s.process_write_event size e
  | state.disconnected => (s, none)

/-- Body of `stream::on_wr_cancel(ctx)` for the writer context of `s`. -/
def stream.on_wr_cancel (s : stream) : stream :=
  match s.m_writer with
  | none => s
  | some w =>
    { (s.emit (call.dispatch_release source_id.writer)).emit (call.close w.m_handle) with
      m_writer := none }

/-- Body of `stream::on_rd_cancel(ctx)` for the reader context of `s`. -/
def stream.on_rd_cancel (s : stream) : stream :=
  match s.m_reader with
  | none => s
  | some r =>
    let s := (s.emit (call.dispatch_release source_id.reader)).emit (call.close r.m_handle)
    let s := if r.m_rd_is_mine then s.emit (call.delete_array r.m_rd_data) else s
    { s with m_reader := none }

/-- Body of `stream::shutdown`. -/
def stream.shutdown (s : stream) : stream :=
  let s := s.start
  let s :=
    match s.m_reader with
    | none => s
    | some r =>
      { s with m_reader := some { r with m_source := dispatch_source_cancel r.m_source } }.emit
        (call.dispatch_source_cancel source_id.reader)
  let s := s.cancel_read_source
  s.cancel_write_source

/-- Outcome of the non-blocking `::connect` call. -/
inductive connect_result
  | completed
  | in_progress
  | failed
  deriving DecidableEq, Repr

/-- What the environment decides during `stream::connect`. -/
structure connect_env where
  /-- result of `::socket` -/
  socket : Int
  /-- the `FIONBIO` ioctl returns 0 -/
  ioctl_ok : Bool
  /-- `m_executor.lock()` yields a runner -/
  executor : Bool
  /-- result of `::connect` (`in_progress` is -1 with `EINPROGRESS`) -/
  connect : connect_result
  deriving DecidableEq, Repr

/-- The `catch (...)` block of `stream::connect`, rethrowing `x`. -/
def stream.connect_catch (s : stream) (handle : Int) (x : exc) : stream × Option exc :=
  let s :=
    match s.m_writer with
    | some w =>
      { s with m_writer := some { w with m_source := dispatch_source_cancel w.m_source } }.emit
        (call.dispatch_source_cancel source_id.writer)
    | none => if handle ≠ invalid_handle then s.emit (call.close handle) else s
  ({ s with m_state := state.disconnected }, some x)

/-- Body of `stream::connect(addr_, port_)`; `create_write_source(handle)` is
called with its default `start_`, which arms the source for the connect event. -/
def stream.connect (linux : Bool) (s : stream) (ce : connect_env) : stream × Option exc :=
  if ce.socket = invalid_handle then s.connect_catch ce.socket exc.operation_failed
  else if !linux && !ce.ioctl_ok then s.connect_catch ce.socket exc.operation_failed
  else
    match s.create_write_source ce.executor ce.socket true with
    | (s, some x) => s.connect_catch ce.socket x
    | (s, none) =>
      match ce.connect with
      | connect_result.failed => s.connect_catch ce.socket exc.operation_failed
      | connect_result.in_progress => ({ s with m_state := state.connecting }, none)
      | connect_result.completed => (s, none)

/-- Body of `stream::initialize(addr_, port_, buf_, bufsz_)`. -/
def stream.init_connect (linux : Bool) (s : stream) (buf_ bufsz_ : Nat) (ce : connect_env) :
    stream × Option exc :=
  { s with m_size := bufsz_, m_buf := buf_, m_state := state.starting }.connect linux ce

/-- Body of `stream::initialize(h_, buf_, bufsz_)`; `osx` is `OSX_TARGET`,
`ioctl_ok` the outcome of the `FIONBIO` ioctl made there. -/
def stream.init_handle (osx : Bool) (s : stream) (h_ : Int) (buf_ bufsz_ : Nat)
    (ioctl_ok : Bool) (e : env) : stream × Option exc :=
  let s := { s with m_state := state.connected }
  if osx && !ioctl_ok then (s, some exc.operation_failed)
  else
    let s := s.emit (call.dup h_)
    if e.dup = invalid_handle then (s, some exc.operation_failed)
    else
      match s.create_write_source e.executor h_ false with
      | (s, some x) => (s, some x)
      | (s, none) => s.create_read_source e.executor e.dup buf_ bufsz_ e.alloc

/-! ### Runs of a stream

One step is a call of the public interface or a callback made by libdispatch.
libdispatch invokes the event handler of a source only while the source is
resumed and not cancelled, and its cancel handler once it is cancelled and
resumed; a callback that is not due leaves the stream as it is. -/

/-- One step of a stream. -/
inductive step
  | write (data : Nat) (size : Nat)
  | writer_ready (size : Nat) (e : env)
  | reader_ready (size : Nat) (e : env)
  | shutdown
  | writer_cancel
  | reader_cancel
  deriving DecidableEq, Repr

/-- The writer source of `s` exists and may run its event handler. -/
def stream.writer_delivers (s : stream) : Bool :=
  match s.m_writer with
  | some w => w.m_source.delivers
  | none => false

/-- The reader source of `s` exists and may run its event handler. -/
def stream.reader_delivers (s : stream) : Bool :=
  match s.m_reader with
  | some r => r.m_source.delivers
  | none => false

/-- Effect of one step on the stream. -/
def stream.step (linux : Bool) (s : stream) : step → stream
  | step.write data size => (s.write data size).1
  | step.writer_ready size e =>
    if s.writer_delivers then (s.on_wr_event linux size e).1 else s
  | step.reader_ready size e =>
    if s.reader_delivers then s.on_rd_event size e else s
  | step.shutdown => s.shutdown
  | step.writer_cancel =>
    match s.m_writer with
    | some w => if w.m_source.delivers_cancel then s.on_wr_cancel else s
    | none => s
  | step.reader_cancel =>
    match s.m_reader with
    | some r => if r.m_source.delivers_cancel then s.on_rd_cancel else s
    | none => s

/-- Effect of a sequence of steps. -/
def stream.run (linux : Bool) (s : stream) (steps : List cool.ng.step) : stream :=
  steps.foldl (stream.step linux) s

/-- The step is a writer-ready event whose `m_handler.lock()` fails. -/
def step.drops_handler : step → Bool
  | step.writer_ready _ e => !e.handler
  | step.reader_ready _ e => !e.handler
  | _ => false

/-- The step is a `write` call or a writer-ready event. -/
def step.is_write_side : step → Bool
  | step.write _ _ => true
  | step.writer_ready _ _ => true
  | _ => false

/-! ## Server -/

/-- Fields of `class server` plus the trace of outgoing calls. -/
structure server where
  m_active : Bool
  m_handle : Int
  m_source : dispatch_source
  trace : List call
  deriving DecidableEq, Repr

/-- Append one outgoing call to the trace. -/
def server.emit (s : server) (c : call) : server :=
  { s with trace := s.trace ++ [c] }

/-- State left by `server::server` once the listen socket `handle` is set up. -/
def server.ctor (handle : Int) : server :=
  { m_active := false
    m_handle := handle
    m_source := dispatch_source_create
    trace := [call.dispatch_source_create source_id.listener handle] }

/-- Body of `server::start`. -/
def server.start (s : server) : server :=
  if !s.m_active then
    { s.emit (call.dispatch_resume source_id.listener) with
      m_source := dispatch_resume s.m_source, m_active := true }
  else s

/-- Body of `server::stop`. -/
def server.stop (s : server) : server :=
  if s.m_active then
    { s.emit (call.dispatch_suspend source_id.listener) with
      m_source := dispatch_suspend s.m_source, m_active := false }
  else s

/-- Body of `server::shutdown`. -/
def server.shutdown (s : server) : server :=
  let s := s.start
  { s.emit (call.dispatch_source_cancel source_id.listener) with
    m_source := dispatch_source_cancel s.m_source }

/-- Body of `server::on_cancel` (the object is deleted afterwards). -/
def server.on_cancel (s : server) : server :=
  (s.emit (call.dispatch_release source_id.listener)).emit (call.close s.m_handle)

/-- The `ss_family` field of the peer address filled in by `accept`. -/
inductive sa_family
  | AF_INET
  | AF_INET6
  | other
  deriving DecidableEq, Repr

/-- What one invocation of the user's `on_connect` does. -/
inductive on_connect_result
  | returns (res : Bool)
  | throws
  deriving DecidableEq, Repr

/-- What the environment decides in one iteration of the accept loop. -/
structure accepted where
  /-- result of `accept` -/
  clt : Int
  /-- family of the peer address -/
  ss_family : sa_family
  /-- the two bytes of the port field of the peer address, in memory order -/
  port_hi : Nat
  port_lo : Nat
  /-- behaviour of the user's `on_connect` -/
  on_connect : on_connect_result
  deriving DecidableEq, Repr

/-- The library function `ntohs` on the two bytes of a 16 bit field stored in
network byte order (most significant byte first). -/
def ntohs (hi lo : Nat) : Nat :=
  (hi % 256) * 256 + lo % 256

/-- The `try` block of the loop body of `server::on_event` after `on_connect`
has been invoked: `res` false or an exception closes the accepted socket. -/
def server.after_on_connect (s : server) (a : accepted) : server :=
  match a.on_connect with
  | on_connect_result.throws => s.emit (call.close a.clt)
  | on_connect_result.returns res => if !res then s.emit (call.close a.clt) else s

/-- One iteration of the loop of `server::on_event`; `cb` tells whether
`m_handler.lock()` yielded a handler. -/
def server.accept_one (cb : Bool) (s : server) (a : accepted) : server :=
  let s := s.emit (call.accept s.m_handle)
  if !cb then s.emit (call.close a.clt)
  else
    match a.ss_family with
    | sa_family.AF_INET =>
      (s.emit (call.on_connect a.clt ip_version.ipv4 (ntohs a.port_hi a.port_lo))).after_on_connect a
    | sa_family.AF_INET6 =>
      (s.emit (call.on_connect a.clt ip_version.ipv6 (ntohs a.port_hi a.port_lo))).after_on_connect a
    | sa_family.other => s.emit (call.close a.clt)

/-- Body of `server::on_event(ctx)`: `size` is `dispatch_source_get_data`,
`conn i` what the environment decides in iteration `i` of the loop. -/
def server.on_event (s : server) (cb : Bool) (size : Nat) (conn : Nat → accepted) : server :=
  (List.range size).foldl (fun s i => s.accept_one cb (conn i)) s

/-! ## Sample objects -/

/-- An environment in which every lock succeeds, `::dup` yields descriptor 4
and a transfer moves `xfer` bytes. -/
def sample_env (xfer : Nat) : env :=
  { executor := true, handler := true, dup := 4, alloc := 4096, xfer := xfer,
    on_read := on_read_result.throws }

/-- The stream that `create_stream(runner, 3, cb, nullptr, 16)` returns. -/
def sample_connected : stream :=
  (stream.ctor.init_handle false 3 nullptr 16 true (sample_env 0)).1

/-- The stream that `create_stream(runner, addr, port, cb, nullptr, 16)` returns
while the connect is in progress. -/
def sample_connecting : stream :=
  (stream.ctor.init_connect false nullptr 16
    { socket := 3, ioctl_ok := true, executor := true, connect := connect_result.in_progress }).1

/-- Calls made between an earlier state `s0` and a later state `s`. -/
def stream.since (s0 s : stream) : List call :=
  s.trace.drop s0.trace.length

/-- Calls made between an earlier state `s0` and a later state `s` of a server. -/
def server.since (s0 s : server) : List call :=
  s.trace.drop s0.trace.length

/-- Writer-ready events, given by the pending size libdispatch reports and by
what the environment decides during the callback. -/
def writer_events (evs : List (Nat × env)) : List step :=
  evs.map (fun p => step.writer_ready p.1 p.2)

/-- Bytes transferred by the `::write` calls of the given writer-ready events. -/
def sent (evs : List (Nat × env)) : Nat :=
  (evs.map (fun p => p.2.xfer)).sum

/-- The stream of `sample_connected` over the caller's buffer at address 512. -/
def sample_borrowed : stream :=
  (stream.ctor.init_handle false 3 512 16 true (sample_env 0)).1

/-- The calls that follow the first `on_event(disconnected)` of a trace. -/
def after_disconnected : List call → List call
  | [] => []
  | c :: l => if c = call.on_event event.disconnected then l else after_disconnected l

/-- The stream is `disconnected` and each source it still has is cancelled. -/
def stream.quiet (s : stream) : Bool :=
  decide (s.m_state = state.disconnected) &&
  (match s.m_reader with
    | some r => r.m_source.cancelled
    | none => true) &&
  (match s.m_writer with
    | some w => w.m_source.cancelled
    | none => true)

/-- A server listening on descriptor 5, freshly constructed. -/
def sample_server : server := server.ctor 5

/-- Three connections: an IPv4 peer from port 0x1F90 whose handler keeps the
socket, an IPv6 peer whose handler throws, and a peer of another family. -/
def sample_conn : Nat → accepted
  | 0 => { clt := 6, ss_family := sa_family.AF_INET, port_hi := 31, port_lo := 144,
           on_connect := on_connect_result.returns true }
  | 1 => { clt := 7, ss_family := sa_family.AF_INET6, port_hi := 0, port_lo := 80,
           on_connect := on_connect_result.throws }
  | _ => { clt := 8, ss_family := sa_family.other, port_hi := 0, port_lo := 0,
           on_connect := on_connect_result.returns true }

/-- A connected stream that is not busy has its writer context, and the writer
source is suspended once and not cancelled. -/
def stream.idle_writer_ok (s : stream) : Bool :=
  if s.m_state = state.connected ∧ s.m_wr_busy = false then
    match s.m_writer with
    | some w => w.m_source.suspend_count == 1 && !w.m_source.cancelled
    | none => false
  else true

/-! ## Public handles (`include/cool/ng/impl/async/event_sources.h`)

The handle templates `detail::server<RunnerT>` and `detail::stream<RunnerT>`
forward each call to the implementation object `m_impl`; a handle is modelled
by the state of that object. -/

/-- Body of `detail::server<RunnerT>::start`: `m_impl->start()`. -/
def detail.server.start (m_impl : cool.ng.server) : cool.ng.server := m_impl.start

/-- Body of `detail::server<RunnerT>::stop`: `m_impl->stop()`. -/
def detail.server.stop (m_impl : cool.ng.server) : cool.ng.server := m_impl.stop

/-- Body of `detail::server<RunnerT>::shutdown`: `m_impl->stop()`. -/
def detail.server.shutdown (m_impl : cool.ng.server) : cool.ng.server := m_impl.stop

/-- Body of `detail::server<RunnerT>::~server`: `m_impl->shutdown()`. -/
def detail.server.dtor (m_impl : cool.ng.server) : cool.ng.server := m_impl.shutdown

/-- Body of `detail::stream<RunnerT>::start`: `m_impl->start()`. -/
def detail.stream.start (m_impl : cool.ng.stream) : cool.ng.stream := m_impl.start

/-- Body of `detail::stream<RunnerT>::stop`: `m_impl->stop()`. -/
def detail.stream.stop (m_impl : cool.ng.stream) : cool.ng.stream := m_impl.stop

/-- Body of `detail::stream<RunnerT>::shutdown`: `m_impl->stop()`. -/
def detail.stream.shutdown (m_impl : cool.ng.stream) : cool.ng.stream := m_impl.stop

/-- Body of `detail::stream<RunnerT>::~stream`: `m_impl->shutdown()`. -/
def detail.stream.dtor (m_impl : cool.ng.stream) : cool.ng.stream := m_impl.shutdown

/-! ## Sequences of server calls -/

/-- A call of the `startable` interface of a server. -/
inductive server_op
  | start
  | stop
  deriving DecidableEq, Repr

/-- Effect of one `start` or `stop` call. -/
def server.apply (s : server) : server_op → server
  | server_op.start => s.start
  | server_op.stop => s.stop

/-- Effect of a sequence of `start` and `stop` calls. -/
def server.run (s : server) (ops : List server_op) : server :=
  ops.foldl server.apply s

/-- A call is `dispatch_resume` or `dispatch_suspend`. -/
def call.is_arming : call → Bool
  | call.dispatch_resume _ => true
  | call.dispatch_suspend _ => true
  | _ => false

/-- A call is `dispatch_resume`. -/
def call.is_resume : call → Bool
  | call.dispatch_resume _ => true
  | _ => false

/-- A call is `::write`. -/
def call.is_write : call → Bool
  | call.write _ _ _ => true
  | _ => false

/-- The calls are `dispatch_resume` and `dispatch_suspend` on the listener in
strict alternation; `armed` tells whether the next one has to be a suspend. -/
def alternates : Bool → List call → Bool
  | _, [] => true
  | false, call.dispatch_resume source_id.listener :: l => alternates true l
  | true, call.dispatch_suspend source_id.listener :: l => alternates false l
  | _, _ :: _ => false

/-- The flag `m_active` of the server agrees with its source: set with the
source resumed, clear with the source suspended once. -/
def server.armed_ok (s : server) : Bool :=
  if s.m_active then s.m_source.suspend_count == 0 else s.m_source.suspend_count == 1

/-! ## Descriptors owned by a stream -/

/-- The descriptors held by the contexts of the stream: the one of the writer
context and the one of the reader context. -/
def stream.owned (s : stream) : List Int :=
  (match s.m_writer with
    | some w => [w.m_handle]
    | none => []) ++
  (match s.m_reader with
    | some r => [r.m_handle]
    | none => [])

/-- The step is a `shutdown` call or a cancel callback. -/
def step.is_teardown : step → Bool
  | step.shutdown => true
  | step.writer_cancel => true
  | step.reader_cancel => true
  | _ => false

/-- The step is a `write` call, a writer-ready event or a reader-ready event. -/
def step.is_traffic : step → Bool
  | step.write _ _ => true
  | step.writer_ready _ _ => true
  | step.reader_ready _ _ => true
  | _ => false

/-- No exception leaves the callback of the step: in a writer-ready event the
runner can be locked and `::dup` succeeds. -/
def step.returns_normally : step → Bool
  | step.writer_ready _ e => e.executor && decide (e.dup ≠ invalid_handle)
  | _ => true

/-- How the suspension count of a writer source that is not cancelled goes
with state and busy flag: resumed while the connect is pending or a write is in
flight, suspended once while the stream is connected and idle or after a failed
connect. -/
def stream.writer_balanced (s : stream) : Bool :=
  match s.m_writer with
  | none => true
  | some w =>
    w.m_source.cancelled ||
    (match s.m_state with
      | state.starting => w.m_source.suspend_count == 0 && !s.m_wr_busy
      | state.connecting => w.m_source.suspend_count == 0 && !s.m_wr_busy
      | state.connected =>
        if s.m_wr_busy then w.m_source.suspend_count == 0 else w.m_source.suspend_count == 1
      | state.disconnected => w.m_source.suspend_count == 1 && !s.m_wr_busy)

/-- The stream the connect constructor leaves after its connect has failed:
`sample_connecting` after a writer-ready event with pending size 0. -/
def sample_connect_failed : stream :=
  sample_connecting.run false [step.writer_ready 0 (sample_env 0)]

/-- The adopted stream with a 5 byte write in flight of which 2 bytes are out. -/
def sample_in_flight : stream :=
  sample_connected.run false [step.write 7 5, step.writer_ready 0 (sample_env 2)]

/-! ## Loop task

The task layer (`cool/ng/async.h`) is used by `tests/unit/task/loop_task.cpp`
but is not among the sources; the loop task is taken from its description.
A callable runs on its runner and may change what the runner holds (the tests
count invocations there), so every callable maps a world `W` to a new one. -/

/-- What a running loop task does, with the state handed over. -/
inductive loop_call (S : Type)
  | predicate (s : S)
  | body (s : S)
  | continuation (s : S)
  deriving DecidableEq, Repr

/-- A call is an invocation of the predicate. -/
def loop_call.is_predicate {S : Type} : loop_call S → Bool
  | loop_call.predicate _ => true
  | _ => false

/-- A call is an invocation of the body. -/
def loop_call.is_body {S : Type} : loop_call S → Bool
  | loop_call.body _ => true
  | _ => false

/-- A call hands the state to the continuation. -/
def loop_call.is_continuation {S : Type} : loop_call S → Bool
  | loop_call.continuation _ => true
  | _ => false

/-- Modelled from the spec: the loop task of section 4.5 (the task layer
`cool/ng/async.h` is missing), "a composition node holding a predicate node
(function `(State) → bool`) and an optional body node (function
`(State) → State`, or `() → ()` in the void case)". -/
structure loop_task (W S : Type) where
  predicate : W → S → Bool × W
  body : Option (W → S → S × W)

/-- What a finished loop task leaves: the state yielded to the continuation,
the world, and the calls made in order. -/
structure loop_result (W S : Type) where
  state : S
  world : W
  log : List (loop_call S)
  deriving DecidableEq, Repr

/-- Modelled from the spec: running a loop task (the task layer
`cool/ng/async.h` is missing), after the pseudo-code of section 4.5:
"`b ← predicate(s)`; if not `b`: yield `s` to the continuation; if body
present: `s ← body(s)`, else `s` unchanged", and again. The yield ends the
loop. `fuel` bounds the number of predicate invocations; `none` means the
loop has not finished within it. -/
def loop_task.run {W S : Type} (t : loop_task W S) : Nat → W → S → Option (loop_result W S)
  | 0, _, _ => none
  | fuel + 1, w, s =>
    if (t.predicate w s).1 then
      match t.body with
      | some f =>
        (t.run fuel (f (t.predicate w s).2 s).2 (f (t.predicate w s).2 s).1).map
          (fun r => { r with log := loop_call.predicate s :: loop_call.body s :: r.log })
      | none =>
        (t.run fuel (t.predicate w s).2 s).map
          (fun r => { r with log := loop_call.predicate s :: r.log })
    else
      some { state := s, world := (t.predicate w s).2,
             log := [loop_call.predicate s, loop_call.continuation s] }

/-- The loop task of a predicate `p` and a body `f` that depend on the state only. -/
def loop_task.of_functions {W S : Type} (p : S → Bool) (f : S → S) : loop_task W S :=
  { predicate := fun w s => (p s, w), body := some (fun w s => (f s, w)) }

/-- The calls of a loop with body that runs the body `n` times from state `s`. -/
def loop_log {S : Type} (f : S → S) : Nat → S → List (loop_call S)
  | 0, s => [loop_call.predicate s, loop_call.continuation s]
  | n + 1, s => loop_call.predicate s :: loop_call.body s :: loop_log f n (f s)

/-- The calls are predicate and body in strict alternation, beginning with the
predicate and ending with a predicate followed by the continuation. -/
def loop_alternates {S : Type} : List (loop_call S) → Bool
  | [loop_call.predicate _, loop_call.continuation _] => true
  | loop_call.predicate _ :: loop_call.body _ :: l => loop_alternates l
  | _ => false

/-- The callables of `BOOST_AUTO_TEST_CASE(void_with_body)`, first block: the
world is the pair of the counters of `runner_1` and `runner_2`. -/
def test_void_false : loop_task (Nat × Nat) Unit :=
  { predicate := fun w _ => (false, (w.1 + 1, w.2)),
    body := some (fun w s => (s, (w.1, w.2 + 1))) }

/-- The callables of `BOOST_AUTO_TEST_CASE(void_with_body)`, second block. -/
def test_void_count : loop_task (Nat × Nat) Unit :=
  { predicate := fun w _ => (decide (w.1 + 1 < 100), (w.1 + 1, w.2)),
    body := some (fun w s => (s, (w.1, w.2 + 1))) }

/-- The callables of `BOOST_AUTO_TEST_CASE(int_with_body)`, first block. -/
def test_int_false : loop_task (Nat × Nat) Int :=
  { predicate := fun w _ => (false, (w.1 + 1, w.2)),
    body := some (fun w s => (s + 1, (w.1, w.2 + 1))) }

/-- The callables of `BOOST_AUTO_TEST_CASE(int_with_body)`, second block. -/
def test_int_count : loop_task (Nat × Nat) Int :=
  { predicate := fun w s => (decide (s < 100), (w.1 + 1, w.2)),
    body := some (fun w s => (s + 1, (w.1, w.2 + 1))) }

/-- The callables of `BOOST_AUTO_TEST_CASE(no_body)`, first block. -/
def test_no_body_false : loop_task (Nat × Nat) Unit :=
  { predicate := fun w _ => (false, (w.1 + 1, w.2)), body := none }

/-- The callables of `BOOST_AUTO_TEST_CASE(no_body)`, second block. -/
def test_no_body_count : loop_task (Nat × Nat) Unit :=
  { predicate := fun w _ => (decide (w.1 + 1 < 100), (w.1 + 1, w.2)), body := none }

/-! ## Theorems -/

/-- C1: `stream::write(data, size)` throws `IllegalState` exactly when the state
is not `connected` or `m_wr_busy` is already set, and then leaves the object
untouched; on a connected, idle stream (whose writer context exists) it
returns normally, sets `m_wr_busy`, stores the slot `(data, size, 0)`, calls
`dispatch_resume` on the writer source exactly once and keeps the state
`connected`. -/
theorem write_contract (s : stream) (data size : Nat) :
    ((∃ x, (s.write data size).2 = some x ∧ x.is_illegal_state = true) ↔
        (s.m_state ≠ state.connected ∨ s.m_wr_busy = true)) ∧
    ((s.m_state ≠ state.connected ∨ s.m_wr_busy = true) → (s.write data size).1 = s) ∧
    (∀ w, s.m_state = state.connected → s.m_wr_busy = false → s.m_writer = some w →
      s.write data size =
        ({ s with
            m_wr_busy := true
            m_wr_data := data
            m_wr_size := size
            m_wr_pos := 0
            m_writer := some { w with m_source := dispatch_resume w.m_source }
            trace := s.trace ++ [call.dispatch_resume source_id.writer] }, none)) := by
  refine ⟨?_, ?_, ?_⟩
  · by_cases hst : s.m_state = state.connected
    · cases hb : s.m_wr_busy
      · cases hw : s.m_writer <;>
          simp [stream.write, hst, hb, hw, exc.is_illegal_state, stream.emit]
      · simp [stream.write, hst, hb, exc.is_illegal_state]
    · simp [stream.write, hst, exc.is_illegal_state]
  · intro h
    by_cases hst : s.m_state = state.connected
    · rcases h with h | h
      · exact absurd hst h
      · simp [stream.write, hst, h]
    · simp [stream.write, hst]
  · intro w hst hb hw
    simp [stream.write, hst, hb, hw, stream.emit]

/-- Witness of C1 on the stream adopted from descriptor 3. -/
theorem write_contract_witness :
    sample_connected.write 7 5 =
      ({ sample_connected with
          m_wr_busy := true
          m_wr_data := 7
          m_wr_size := 5
          m_wr_pos := 0
          m_writer := some { m_handle := 3, m_source := { suspend_count := 0, cancelled := false } }
          trace := sample_connected.trace ++ [call.dispatch_resume source_id.writer] }, none) :=
  (write_contract sample_connected 7 5).2.2
    { m_handle := 3, m_source := { suspend_count := 1, cancelled := false } } rfl rfl rfl

/-! ### Single write in flight -/

/-- The trace after `emit` is the old trace followed by the call. -/
theorem emit_trace (s : stream) (c : call) : (s.emit c).trace = s.trace ++ [c] := rfl

/-- Calls made since `s0` when the trace of `s` extends the trace of `s0` by `l`. -/
theorem since_of_trace_eq (s0 s : stream) (l : List call) (h : s.trace = s0.trace ++ l) :
    s0.since s = l := by
  simp [stream.since, h]

/-- While a write is in flight on a connected stream, a `write` call or a
writer-ready event with a live handler extends the trace, and unless it
delivers `on_write` the write is still in flight afterwards. -/
theorem write_side_step (linux : Bool) (s : stream) (x : step)
    (hst : s.m_state = state.connected) (hb : s.m_wr_busy = true)
    (hx : x.is_write_side = true) (hl : x.drops_handler = false) :
    ∃ l, (s.step linux x).trace = s.trace ++ l ∧
      ((∀ c ∈ l, c.is_on_write = false) →
        (s.step linux x).m_state = state.connected ∧ (s.step linux x).m_wr_busy = true) := by
  cases x with
  | write d n =>
    refine ⟨[], ?_, fun _ => ?_⟩ <;> simp [stream.step, stream.write, hst, hb]
  | writer_ready size e =>
    have he : e.handler = true := by simpa [step.drops_handler] using hl
    by_cases hd : s.writer_delivers = true
    · cases hw : s.m_writer with
      | none => simp [stream.writer_delivers, hw] at hd
      | some w =>
        by_cases hp : (s.m_wr_pos + e.xfer) % SIZE_MOD ≥ s.m_wr_size
        · refine ⟨[call.write w.m_handle (s.m_wr_data + s.m_wr_pos)
              ((s.m_wr_size + SIZE_MOD - s.m_wr_pos) % SIZE_MOD),
            call.dispatch_suspend source_id.writer, call.on_write s.m_wr_data s.m_wr_size], ?_, ?_⟩
          · simp [stream.step, hd, stream.on_wr_event, hst, stream.process_write_event, hw,
              stream.emit, hp, he]
          · intro h
            have := h (call.on_write s.m_wr_data s.m_wr_size) (by simp)
            simp [call.is_on_write] at this
        · refine ⟨[call.write w.m_handle (s.m_wr_data + s.m_wr_pos)
              ((s.m_wr_size + SIZE_MOD - s.m_wr_pos) % SIZE_MOD)], ?_, fun _ => ?_⟩ <;>
            simp [stream.step, hd, stream.on_wr_event, hst, stream.process_write_event, hw,
              stream.emit, hp, hb]
    · refine ⟨[], ?_, fun _ => ?_⟩ <;> simp [stream.step, hd, hst, hb]
  | reader_ready size e => simp [step.is_write_side] at hx
  | shutdown => simp [step.is_write_side] at hx
  | writer_cancel => simp [step.is_write_side] at hx
  | reader_cancel => simp [step.is_write_side] at hx

/-- `stream::start` makes no call. -/
theorem start_trace (s : stream) : s.start.trace = s.trace := by
  unfold stream.start; split <;> rfl

/-- `stream::cancel_write_source` only appends to the trace. -/
theorem cancel_write_source_extends (s : stream) :
    ∃ l, s.cancel_write_source.trace = s.trace ++ l := by
  cases hw : s.m_writer <;> cases hb : s.m_wr_busy <;>
    simp [stream.cancel_write_source, hw, hb, stream.emit]

/-- `stream::cancel_read_source` only appends to the trace. -/
theorem cancel_read_source_extends (s : stream) :
    ∃ l, s.cancel_read_source.trace = s.trace ++ l := by
  cases hr : s.m_reader <;>
    simp [stream.cancel_read_source, hr, stream.emit, start_trace]

/-- `stream::write` only appends to the trace. -/
theorem write_extends (s : stream) (d n : Nat) :
    ∃ l, (s.write d n).1.trace = s.trace ++ l := by
  by_cases hst : s.m_state = state.connected <;> cases hb : s.m_wr_busy <;>
    cases hw : s.m_writer <;> simp [stream.write, hst, hb, hw, stream.emit]

/-- `stream::process_write_event` only appends to the trace. -/
theorem process_write_event_extends (s : stream) (size : Nat) (e : env) :
    ∃ l, (s.process_write_event size e).1.trace = s.trace ++ l := by
  cases hw : s.m_writer <;>
    by_cases hp : s.m_wr_size ≤ (s.m_wr_pos + e.xfer) % SIZE_MOD <;>
    cases hh : e.handler <;>
    simp [stream.process_write_event, hw, hp, hh, stream.emit]

/-- `stream::create_read_source` only appends to the trace. -/
theorem create_read_source_extends (s : stream) (ex : Bool) (h : Int) (buf bufsz alloc : Nat) :
    ∃ l, (s.create_read_source ex h buf bufsz alloc).1.trace = s.trace ++ l := by
  cases ex <;> by_cases hh : h = invalid_handle <;> by_cases hb : buf = nullptr <;>
    simp [stream.create_read_source, hh, hb, stream.emit]

/-- `stream::process_connect_event` only appends to the trace. -/
theorem process_connect_event_extends (linux : Bool) (s : stream) (size : Nat) (e : env) :
    ∃ l, (s.process_connect_event linux size e).1.trace = s.trace ++ l := by
  cases hw : s.m_writer with
  | none => exact ⟨[], by simp [stream.process_connect_event, hw]⟩
  | some w =>
    cases hf : connect_failed_pred linux size <;> cases hh : e.handler <;>
      cases hx : e.executor <;> by_cases hd : e.dup = invalid_handle <;>
      by_cases hb : s.m_buf = nullptr <;>
      simp [stream.process_connect_event, hw, hf, hh, hx, hd, hb, stream.create_read_source,
        stream.emit]

/-- `stream::on_wr_event` only appends to the trace. -/
theorem on_wr_event_extends (linux : Bool) (s : stream) (size : Nat) (e : env) :
    ∃ l, (s.on_wr_event linux size e).1.trace = s.trace ++ l := by
  unfold stream.on_wr_event
  split
  · exact process_connect_event_extends linux s size e
  · exact process_connect_event_extends linux s size e
  · exact process_write_event_extends s size e
  · exact ⟨[], by simp⟩

/-- `stream::process_disconnect_event` only appends to the trace. -/
theorem process_disconnect_event_extends (s : stream) (e : env) :
    ∃ l, (s.process_disconnect_event e).trace = s.trace ++ l := by
  cases hw : s.m_writer <;> cases hb : s.m_wr_busy <;> cases hr : s.m_reader <;>
    cases hh : e.handler <;> cases ha : s.m_active <;>
    simp [stream.process_disconnect_event, stream.cancel_write_source,
      stream.cancel_read_source, stream.start, hw, hb, hr, hh, ha, stream.emit]

/-- `stream::on_rd_event` only appends to the trace. -/
theorem on_rd_event_extends (s : stream) (size : Nat) (e : env) :
    ∃ l, (s.on_rd_event size e).trace = s.trace ++ l := by
  cases hr : s.m_reader with
  | none => exact ⟨[], by simp [stream.on_rd_event, hr]⟩
  | some r =>
    by_cases hz : size = 0
    · obtain ⟨l, hl⟩ := process_disconnect_event_extends s e
      exact ⟨l, by simp [stream.on_rd_event, hr, hz, hl]⟩
    · cases hh : e.handler
      · simp [stream.on_rd_event, hr, hz, hh, stream.emit]
      · cases ho : e.on_read with
        | throws => simp [stream.on_rd_event, hr, hz, hh, ho, stream.emit]
        | returns b n =>
          by_cases hs : b = r.m_rd_data <;> cases hm : r.m_rd_is_mine <;>
            simp [stream.on_rd_event, hr, hz, hh, ho, hs, hm, stream.emit]

/-- `stream::shutdown` only appends to the trace. -/
theorem shutdown_extends (s : stream) : ∃ l, s.shutdown.trace = s.trace ++ l := by
  cases hw : s.m_writer <;> cases hb : s.m_wr_busy <;> cases hr : s.m_reader <;>
    cases ha : s.m_active <;>
    simp [stream.shutdown, stream.cancel_write_source, stream.cancel_read_source,
      stream.start, hw, hb, hr, ha, stream.emit]

/-- `stream::on_wr_cancel` only appends to the trace. -/
theorem on_wr_cancel_extends (s : stream) : ∃ l, s.on_wr_cancel.trace = s.trace ++ l := by
  cases hw : s.m_writer <;> simp [stream.on_wr_cancel, hw, stream.emit]

/-- `stream::on_rd_cancel` only appends to the trace. -/
theorem on_rd_cancel_extends (s : stream) : ∃ l, s.on_rd_cancel.trace = s.trace ++ l := by
  cases hr : s.m_reader with
  | none => simp [stream.on_rd_cancel, hr]
  | some r => cases hm : r.m_rd_is_mine <;> simp [stream.on_rd_cancel, hr, hm, stream.emit]

/-- Every step only appends to the trace. -/
theorem step_extends (linux : Bool) (s : stream) (x : step) :
    ∃ l, (s.step linux x).trace = s.trace ++ l := by
  cases x with
  | write d n => exact write_extends s d n
  | writer_ready size e =>
    simp only [stream.step]
    split
    · exact on_wr_event_extends linux s size e
    · exact ⟨[], by simp⟩
  | reader_ready size e =>
    simp only [stream.step]
    split
    · exact on_rd_event_extends s size e
    · exact ⟨[], by simp⟩
  | shutdown => exact shutdown_extends s
  | writer_cancel =>
    simp only [stream.step]
    split
    · split
      · exact on_wr_cancel_extends s
      · exact ⟨[], by simp⟩
    · exact ⟨[], by simp⟩
  | reader_cancel =>
    simp only [stream.step]
    split
    · split
      · exact on_rd_cancel_extends s
      · exact ⟨[], by simp⟩
    · exact ⟨[], by simp⟩

/-- Every run only appends to the trace. -/
theorem run_extends (linux : Bool) (steps : List step) :
    ∀ s : stream, ∃ l, (s.run linux steps).trace = s.trace ++ l := by
  induction steps with
  | nil => intro s; exact ⟨[], by simp [stream.run]⟩
  | cons x xs ih =>
    intro s
    obtain ⟨m, hm⟩ := ih (s.step linux x)
    obtain ⟨k, hk⟩ := step_extends linux s x
    refine ⟨k ++ m, ?_⟩
    have hrun : s.run linux (x :: xs) = (s.step linux x).run linux xs := by
      simp [stream.run]
    rw [hrun, hm, hk, List.append_assoc]

/-- A run of `write` calls and writer-ready events with live handlers that
delivers no `on_write` keeps the write in flight. -/
theorem write_side_run (linux : Bool) (steps : List step) :
    ∀ s : stream, s.m_state = state.connected → s.m_wr_busy = true →
      (∀ x ∈ steps, x.is_write_side = true ∧ x.drops_handler = false) →
      (∀ c ∈ s.since (s.run linux steps), c.is_on_write = false) →
      (s.run linux steps).m_state = state.connected ∧ (s.run linux steps).m_wr_busy = true := by
  induction steps with
  | nil => intro s hst hb _ _; exact ⟨hst, hb⟩
  | cons x xs ih =>
    intro s hst hb hsteps hq
    obtain ⟨l, hl, hP⟩ := write_side_step linux s x hst hb
      (hsteps x (by simp)).1 (hsteps x (by simp)).2
    have hrun : s.run linux (x :: xs) = (s.step linux x).run linux xs := by
      simp [stream.run]
    rw [hrun] at hq ⊢
    have hlen : (s.step linux x).trace.length = s.trace.length + l.length := by
      rw [hl, List.length_append]
    have hsplit : s.since ((s.step linux x).run linux xs) =
        l ++ (s.step linux x).since ((s.step linux x).run linux xs) := by
      obtain ⟨m, hm⟩ := run_extends linux xs (s.step linux x)
      simp [stream.since, hm, hl, List.append_assoc]
    rw [hsplit] at hq
    have hstep := hP (fun c hc => hq c (List.mem_append_left _ hc))
    exact ih (s.step linux x) hstep.1 hstep.2
      (fun y hy => hsteps y (List.mem_cons_of_mem _ hy))
      (fun c hc => hq c (List.mem_append_right _ hc))

/-- A `write` that returns normally leaves a connected stream with the busy flag set. -/
theorem write_ok_state (s : stream) (data size : Nat) (h : (s.write data size).2 = none) :
    (s.write data size).1.m_state = state.connected ∧ (s.write data size).1.m_wr_busy = true := by
  by_cases hst : s.m_state = state.connected <;> cases hb : s.m_wr_busy <;>
    cases hw : s.m_writer <;> simp_all [stream.write, stream.emit]

/-- A `write` on a connected stream whose busy flag is set throws and changes nothing. -/
theorem write_while_busy (s : stream) (d n : Nat)
    (hst : s.m_state = state.connected) (hb : s.m_wr_busy = true) :
    s.write d n = (s, some exc.illegal_state_writer_busy) := by
  simp [stream.write, hst, hb]

/-- C2 (P1, single write in flight): after `write(data, size)` has been accepted,
take any sequence of further `write` calls and writer-ready events (each finding
a live handler). As long as no `on_write` has been delivered since the accepted
write, a further `write(d, n)` throws `IllegalState` ("writer busy") and returns
the object exactly as it was: slot, busy flag, state and writer source unchanged. -/
theorem single_write_in_flight (linux : Bool) (s : stream) (data size : Nat)
    (steps : List step) (d n : Nat)
    (hw : (s.write data size).2 = none)
    (hsteps : ∀ x ∈ steps, x.is_write_side = true ∧ x.drops_handler = false)
    (hpending : ∀ c ∈ (s.write data size).1.since ((s.write data size).1.run linux steps),
      c.is_on_write = false) :
    ((s.write data size).1.run linux steps).write d n =
      ((s.write data size).1.run linux steps, some exc.illegal_state_writer_busy) := by
  obtain ⟨hst, hb⟩ := write_ok_state s data size hw
  obtain ⟨hst2, hb2⟩ := write_side_run linux steps _ hst hb hsteps hpending
  exact write_while_busy _ d n hst2 hb2

/-- Witness of C2: a 5 byte write on the adopted stream, of which 2 and then 1
bytes have gone out, with a rejected `write` in between. -/
theorem single_write_in_flight_witness :
    ((sample_connected.write 7 5).1.run false
        [step.writer_ready 0 (sample_env 2), step.write 9 1,
          step.writer_ready 0 (sample_env 1)]).write 11 4 =
      ((sample_connected.write 7 5).1.run false
        [step.writer_ready 0 (sample_env 2), step.write 9 1,
          step.writer_ready 0 (sample_env 1)], some exc.illegal_state_writer_busy) :=
  single_write_in_flight false sample_connected 7 5
    [step.writer_ready 0 (sample_env 2), step.write 9 1, step.writer_ready 0 (sample_env 1)]
    11 4 (by decide) (by decide) (by decide)

/-! ### Partial writes -/

/-- The state a connected idle stream is in after `write(data, size)`. -/
theorem write_accepted (s : stream) (w : context) (data size : Nat)
    (hst : s.m_state = state.connected) (hb : s.m_wr_busy = false)
    (hw : s.m_writer = some w) :
    s.write data size =
      ({ s with
          m_wr_busy := true
          m_wr_data := data
          m_wr_size := size
          m_wr_pos := 0
          m_writer := some { w with m_source := dispatch_resume w.m_source }
          trace := s.trace ++ [call.dispatch_resume source_id.writer] }, none) := by
  simp [stream.write, hst, hb, hw, stream.emit]

/-- One writer-ready event that does not complete the slot: the position
advances by the bytes transferred and nothing else changes but the trace. -/
theorem in_flight_step (linux : Bool) (t : stream) (w0 : context) (ev : Nat × env)
    (hst : t.m_state = state.connected) (hw : t.m_writer = some w0)
    (hd : w0.m_source.delivers = true) (hsize : t.m_wr_size < SIZE_MOD)
    (hlt : t.m_wr_pos + ev.2.xfer < t.m_wr_size) :
    t.step linux (step.writer_ready ev.1 ev.2) =
      { t with
        m_wr_pos := t.m_wr_pos + ev.2.xfer
        trace := t.trace ++ [call.write w0.m_handle (t.m_wr_data + t.m_wr_pos)
          ((t.m_wr_size + SIZE_MOD - t.m_wr_pos) % SIZE_MOD)] } := by
  have hmod : (t.m_wr_pos + ev.2.xfer) % SIZE_MOD = t.m_wr_pos + ev.2.xfer :=
    Nat.mod_eq_of_lt (lt_trans hlt hsize)
  have hnot : ¬ t.m_wr_size ≤ t.m_wr_pos + ev.2.xfer := not_le.mpr hlt
  simp [stream.step, stream.writer_delivers, hw, hd, stream.on_wr_event, hst,
    stream.process_write_event, stream.emit, hmod, hnot]

/-- The writer-ready event that completes the slot: one `::write`, the writer
source is suspended, the busy flag is cleared and a live handler gets `on_write`. -/
theorem completion_step (linux : Bool) (t : stream) (w0 : context) (ev : Nat × env)
    (hst : t.m_state = state.connected) (hw : t.m_writer = some w0)
    (hd : w0.m_source.delivers = true) (hsize : t.m_wr_size < SIZE_MOD)
    (heq : t.m_wr_pos + ev.2.xfer = t.m_wr_size) (hlive : ev.2.handler = true) :
    t.step linux (step.writer_ready ev.1 ev.2) =
      { t with
        m_wr_pos := t.m_wr_size
        m_wr_busy := false
        m_writer := some { w0 with m_source := dispatch_suspend w0.m_source }
        trace := t.trace ++ [call.write w0.m_handle (t.m_wr_data + t.m_wr_pos)
          ((t.m_wr_size + SIZE_MOD - t.m_wr_pos) % SIZE_MOD),
          call.dispatch_suspend source_id.writer, call.on_write t.m_wr_data t.m_wr_size] } := by
  have hmod : (t.m_wr_pos + ev.2.xfer) % SIZE_MOD = t.m_wr_size := by
    rw [heq]; exact Nat.mod_eq_of_lt hsize
  simp [stream.step, stream.writer_delivers, hw, hd, stream.on_wr_event, hst,
    stream.process_write_event, stream.emit, hmod, hlive]

/-- While the writer source does not deliver, writer-ready events change nothing. -/
theorem suspended_run (linux : Bool) (t : stream) (hd : t.writer_delivers = false)
    (evs : List (Nat × env)) : t.run linux (writer_events evs) = t := by
  induction evs with
  | nil => rfl
  | cons a evs ih =>
    have h1 : t.step linux (step.writer_ready a.1 a.2) = t := by
      simp [stream.step, hd]
    have hrun : t.run linux (writer_events (a :: evs)) =
        (t.step linux (step.writer_ready a.1 a.2)).run linux (writer_events evs) := by
      simp [stream.run, writer_events]
    rw [hrun, h1, ih]

/-- Writer-ready events that together transfer less than what is left of the
slot: the position is the sum of the transfers, no `on_write` is delivered, the
busy flag stays set and the writer source is as it was. -/
theorem in_flight_run (linux : Bool) (w0 : context) (hd : w0.m_source.delivers = true)
    (evs : List (Nat × env)) :
    ∀ t : stream, t.m_state = state.connected → t.m_writer = some w0 →
      t.m_wr_size < SIZE_MOD → (evs = [] ∨ t.m_wr_pos + sent evs < t.m_wr_size) →
      (t.run linux (writer_events evs)).m_state = state.connected ∧
      (t.run linux (writer_events evs)).m_writer = some w0 ∧
      (t.run linux (writer_events evs)).m_wr_busy = t.m_wr_busy ∧
      (t.run linux (writer_events evs)).m_wr_data = t.m_wr_data ∧
      (t.run linux (writer_events evs)).m_wr_size = t.m_wr_size ∧
      (t.run linux (writer_events evs)).m_wr_pos = t.m_wr_pos + sent evs ∧
      ∃ l, (t.run linux (writer_events evs)).trace = t.trace ++ l ∧
        ∀ c ∈ l, c.is_callback = false := by
  induction evs with
  | nil =>
    intro t hst hw _ _
    exact ⟨hst, hw, rfl, rfl, rfl, by simp [sent, stream.run, writer_events],
      [], by simp [stream.run, writer_events], by simp⟩
  | cons a evs ih =>
    intro t hst hw hsize hlt
    have hsent : sent (a :: evs) = a.2.xfer + sent evs := by simp [sent]
    replace hlt : t.m_wr_pos + sent (a :: evs) < t.m_wr_size := by
      rcases hlt with h | h
      · exact absurd h (List.cons_ne_nil _ _)
      · exact h
    rw [hsent] at hlt
    have hstep := in_flight_step linux t w0 a hst hw hd hsize (by omega)
    have hrun : t.run linux (writer_events (a :: evs)) =
        (t.step linux (step.writer_ready a.1 a.2)).run linux (writer_events evs) := by
      simp [stream.run, writer_events]
    rw [hrun, hstep]
    obtain ⟨h1, h2, h3, h4, h5, h6, l, h7, h8⟩ := ih
      { t with
        m_wr_pos := t.m_wr_pos + a.2.xfer
        trace := t.trace ++ [call.write w0.m_handle (t.m_wr_data + t.m_wr_pos)
          ((t.m_wr_size + SIZE_MOD - t.m_wr_pos) % SIZE_MOD)] }
      hst hw hsize (Or.inr (by simp only []; omega))
    refine ⟨h1, h2, h3, h4, h5, ?_, call.write w0.m_handle (t.m_wr_data + t.m_wr_pos)
      ((t.m_wr_size + SIZE_MOD - t.m_wr_pos) % SIZE_MOD) :: l, ?_, ?_⟩
    · rw [h6, hsent]; simp only []; omega
    · rw [h7]; simp
    · intro c hc
      rcases List.mem_cons.mp hc with hc | hc
      · rw [hc]; rfl
      · exact h8 c hc

/-- The transfers of a list of events add up over concatenation. -/
theorem sent_append (p q : List (Nat × env)) : sent (p ++ q) = sent p + sent q := by
  simp [sent]

/-- A call that is not a callback is not `on_write`. -/
theorem not_on_write_of_not_callback (c : call) (h : c.is_callback = false) :
    c.is_on_write = false := by
  cases c <;> simp_all [call.is_callback, call.is_on_write]

/-- Running a concatenation of steps is running the parts in turn. -/
theorem run_append (linux : Bool) (s : stream) (xs ys : List step) :
    s.run linux (xs ++ ys) = (s.run linux xs).run linux ys := by
  simp [stream.run, List.foldl_append]

/-- C4 (partial writes): let `write(data, size)` be accepted on an idle connected
stream (writer source suspended, not cancelled), and let writer-ready events
follow whose `::write` calls transfer `sent pre` bytes without reaching `size`
(no such event at all when `size = 0`) and then, in the event `ev`, the rest.
After every initial part `p` of `pre` the position is the sum of the transfers,
the busy flag is set, the writer source is resumed and no `on_write` has been
delivered. At `ev` the position reaches `size`, the writer source is suspended,
the busy flag is cleared and `on_write(data, size)` is delivered to the live
handler as the last call, the only `on_write` so far. Any writer-ready events
after that find the source suspended and change nothing. -/
theorem write_completion (linux : Bool) (s : stream) (w : context) (data size : Nat)
    (pre : List (Nat × env)) (ev : Nat × env) (post : List (Nat × env))
    (hst : s.m_state = state.connected) (hb : s.m_wr_busy = false)
    (hw : s.m_writer = some w) (hsrc : w.m_source = dispatch_source_create)
    (hsize : size < SIZE_MOD)
    (hfirst : pre = [] ∨ sent pre < size)
    (hev : sent pre + ev.2.xfer = size)
    (hlive : ev.2.handler = true) :
    (∀ p, p <+: pre →
      ((s.write data size).1.run linux (writer_events p)).m_wr_pos = sent p ∧
      ((s.write data size).1.run linux (writer_events p)).m_wr_busy = true ∧
      ((s.write data size).1.run linux (writer_events p)).m_writer =
        some { w with m_source := { suspend_count := 0, cancelled := false } } ∧
      ∀ c ∈ (s.write data size).1.since ((s.write data size).1.run linux (writer_events p)),
        c.is_on_write = false) ∧
    (((s.write data size).1.run linux (writer_events (pre ++ [ev]))).m_wr_pos = size ∧
      ((s.write data size).1.run linux (writer_events (pre ++ [ev]))).m_wr_busy = false ∧
      ((s.write data size).1.run linux (writer_events (pre ++ [ev]))).m_writer =
        some { w with m_source := { suspend_count := 1, cancelled := false } } ∧
      ((s.write data size).1.run linux (writer_events (pre ++ [ev]))).m_state =
        state.connected ∧
      ((s.write data size).1.since
        ((s.write data size).1.run linux (writer_events (pre ++ [ev])))).filter
          call.is_on_write = [call.on_write data size] ∧
      ((s.write data size).1.since
        ((s.write data size).1.run linux (writer_events (pre ++ [ev])))).getLast? =
          some (call.on_write data size)) ∧
    (s.write data size).1.run linux (writer_events (pre ++ [ev] ++ post)) =
      (s.write data size).1.run linux (writer_events (pre ++ [ev])) := by
  -- the state right after the accepted write
  have hwrite := write_accepted s w data size hst hb hw
  rw [hsrc] at hwrite
  generalize hs1 : (s.write data size).1 = s1
  have hs1eq : s1 = { s with
      m_wr_busy := true
      m_wr_data := data
      m_wr_size := size
      m_wr_pos := 0
      m_writer := some { w with m_source := dispatch_resume dispatch_source_create }
      trace := s.trace ++ [call.dispatch_resume source_id.writer] } := by
    rw [← hs1, hwrite]
  have hd : ({ w with m_source := dispatch_resume dispatch_source_create } :
      context).m_source.delivers = true := rfl
  have h1st : s1.m_state = state.connected := by rw [hs1eq]; exact hst
  have h1w : s1.m_writer = some { w with m_source := dispatch_resume dispatch_source_create } := by
    rw [hs1eq]
  have h1size : s1.m_wr_size = size := by rw [hs1eq]
  have h1data : s1.m_wr_data = data := by rw [hs1eq]
  have h1pos : s1.m_wr_pos = 0 := by rw [hs1eq]
  have h1busy : s1.m_wr_busy = true := by rw [hs1eq]
  have hflight : ∀ p : List (Nat × env), (p = [] ∨ sent p < size) →
      (s1.run linux (writer_events p)).m_state = state.connected ∧
      (s1.run linux (writer_events p)).m_writer =
        some { w with m_source := dispatch_resume dispatch_source_create } ∧
      (s1.run linux (writer_events p)).m_wr_busy = true ∧
      (s1.run linux (writer_events p)).m_wr_data = data ∧
      (s1.run linux (writer_events p)).m_wr_size = size ∧
      (s1.run linux (writer_events p)).m_wr_pos = sent p ∧
      ∃ l, (s1.run linux (writer_events p)).trace = s1.trace ++ l ∧
        ∀ c ∈ l, c.is_callback = false := by
    intro p hp
    have := in_flight_run linux _ hd p s1 h1st h1w (by rw [h1size]; exact hsize)
      (by rw [h1size, h1pos]; rcases hp with h | h
          · exact Or.inl h
          · exact Or.inr (by omega))
    rw [h1busy, h1data, h1size, h1pos, Nat.zero_add] at this
    exact this
  refine ⟨?_, ?_, ?_⟩
  · intro p hp
    have hpp : p = [] ∨ sent p < size := by
      obtain ⟨q, hq⟩ := hp
      rcases hfirst with h | h
      · left
        rw [h] at hq
        exact (List.append_eq_nil.mp hq).1
      · right
        rw [← hq, sent_append] at h
        omega
    obtain ⟨_, f2, f3, _, _, f6, l, f7, f8⟩ := hflight p hpp
    refine ⟨f6, f3, f2, ?_⟩
    intro c hc
    rw [since_of_trace_eq _ _ l f7] at hc
    exact not_on_write_of_not_callback c (f8 c hc)
  · obtain ⟨f1, f2, f3, f4, f5, f6, l, f7, f8⟩ := hflight pre hfirst
    have hrun : s1.run linux (writer_events (pre ++ [ev])) =
        (s1.run linux (writer_events pre)).step linux (step.writer_ready ev.1 ev.2) := by
      simp [writer_events, stream.run, List.foldl_append]
    have hstep := completion_step linux (s1.run linux (writer_events pre)) _ ev f1 f2 hd
      (by rw [f5]; exact hsize) (by rw [f6, f5]; exact hev) hlive
    rw [hrun, hstep]
    refine ⟨f5, rfl, rfl, f1, ?_, ?_⟩
    · rw [since_of_trace_eq s1 _ (l ++ [call.write w.m_handle
          ((s1.run linux (writer_events pre)).m_wr_data + (s1.run linux (writer_events pre)).m_wr_pos)
          (((s1.run linux (writer_events pre)).m_wr_size + SIZE_MOD -
            (s1.run linux (writer_events pre)).m_wr_pos) % SIZE_MOD),
          call.dispatch_suspend source_id.writer,
          call.on_write (s1.run linux (writer_events pre)).m_wr_data
            (s1.run linux (writer_events pre)).m_wr_size]) (by simp [f7])]
      have hl : l.filter call.is_on_write = [] := by
        rw [List.filter_eq_nil_iff]
        intro c hc
        simp [not_on_write_of_not_callback c (f8 c hc)]
      simp [List.filter_append, hl, call.is_on_write, List.filter, f4, f5]
    · rw [since_of_trace_eq s1 _ (l ++ [call.write w.m_handle
          ((s1.run linux (writer_events pre)).m_wr_data + (s1.run linux (writer_events pre)).m_wr_pos)
          (((s1.run linux (writer_events pre)).m_wr_size + SIZE_MOD -
            (s1.run linux (writer_events pre)).m_wr_pos) % SIZE_MOD),
          call.dispatch_suspend source_id.writer,
          call.on_write (s1.run linux (writer_events pre)).m_wr_data
            (s1.run linux (writer_events pre)).m_wr_size]) (by simp [f7])]
      simp [f4, f5]
  · obtain ⟨f1, f2, f3, f4, f5, f6, l, f7, f8⟩ := hflight pre hfirst
    have hrun : s1.run linux (writer_events (pre ++ [ev])) =
        (s1.run linux (writer_events pre)).step linux (step.writer_ready ev.1 ev.2) := by
      simp [writer_events, stream.run, List.foldl_append]
    have hstep := completion_step linux (s1.run linux (writer_events pre)) _ ev f1 f2 hd
      (by rw [f5]; exact hsize) (by rw [f6, f5]; exact hev) hlive
    have happ : writer_events (pre ++ [ev] ++ post) =
        writer_events (pre ++ [ev]) ++ writer_events post := by
      simp [writer_events]
    rw [happ, run_append]
    apply suspended_run
    rw [hrun, hstep]
    simp [stream.writer_delivers, dispatch_source.delivers, dispatch_source.resumed,
      dispatch_suspend, dispatch_resume, dispatch_source_create]

/-- Witness of C4: a 5 byte write on the adopted stream goes out as 2, 0, 1 and
2 bytes; `on_write(7, 5)` comes with the fourth event and only then. -/
theorem write_completion_witness :
    ((sample_connected.write 7 5).1.run false (writer_events
        ([(0, sample_env 2), (0, sample_env 0), (0, sample_env 1)] ++
          [(0, sample_env 2)]))).m_wr_pos = 5 ∧
      ((sample_connected.write 7 5).1.run false (writer_events
        ([(0, sample_env 2), (0, sample_env 0), (0, sample_env 1)] ++
          [(0, sample_env 2)]))).m_wr_busy = false ∧
      ((sample_connected.write 7 5).1.run false (writer_events
        ([(0, sample_env 2), (0, sample_env 0), (0, sample_env 1)] ++
          [(0, sample_env 2)]))).m_writer =
        some { m_handle := 3, m_source := { suspend_count := 1, cancelled := false } } ∧
      ((sample_connected.write 7 5).1.run false (writer_events
        ([(0, sample_env 2), (0, sample_env 0), (0, sample_env 1)] ++
          [(0, sample_env 2)]))).m_state = state.connected ∧
      ((sample_connected.write 7 5).1.since
        ((sample_connected.write 7 5).1.run false (writer_events
          ([(0, sample_env 2), (0, sample_env 0), (0, sample_env 1)] ++
            [(0, sample_env 2)])))).filter call.is_on_write = [call.on_write 7 5] ∧
      ((sample_connected.write 7 5).1.since
        ((sample_connected.write 7 5).1.run false (writer_events
          ([(0, sample_env 2), (0, sample_env 0), (0, sample_env 1)] ++
            [(0, sample_env 2)])))).getLast? = some (call.on_write 7 5) :=
  (write_completion false sample_connected
    { m_handle := 3, m_source := { suspend_count := 1, cancelled := false } } 7 5
    [(0, sample_env 2), (0, sample_env 0), (0, sample_env 1)] (0, sample_env 2)
    [(0, sample_env 3)] rfl rfl rfl rfl (by decide) (Or.inr (by decide)) (by decide) rfl).2.1

/-! ### Connect completion -/

/-- A writer-ready event in state `starting` or `connecting` whose size passes
the platform test, with a successful `::dup`, a live runner and a live handler:
the writer source is suspended, a resumed reader source is created on the
duplicated descriptor, the state becomes `connected` and `connected` is the one
callback made. When the size fails the platform test the state becomes
`disconnected` and `connect_failed` is the one callback made. -/
theorem connect_event_delivers_once (linux : Bool) (s : stream) (w : context) (size : Nat)
    (e : env) (hst : s.m_state = state.starting ∨ s.m_state = state.connecting)
    (hw : s.m_writer = some w) (hlive : e.handler = true) :
    (connect_failed_pred linux size = true →
      (s.on_wr_event linux size e).2 = none ∧
      (s.on_wr_event linux size e).1.m_state = state.disconnected ∧
      (s.on_wr_event linux size e).1.m_writer =
        some { w with m_source := dispatch_suspend w.m_source } ∧
      s.since (s.on_wr_event linux size e).1 =
        [call.dispatch_suspend source_id.writer, call.on_event event.connect_failed]) ∧
    (connect_failed_pred linux size = false → e.executor = true → e.dup ≠ invalid_handle →
      (s.on_wr_event linux size e).2 = none ∧
      (s.on_wr_event linux size e).1.m_state = state.connected ∧
      (s.on_wr_event linux size e).1.m_writer =
        some { w with m_source := dispatch_suspend w.m_source } ∧
      (∃ r, (s.on_wr_event linux size e).1.m_reader = some r ∧ r.m_handle = e.dup ∧
        r.m_source = { suspend_count := 0, cancelled := false }) ∧
      (s.since (s.on_wr_event linux size e).1).filter call.is_callback =
        [call.on_event event.connected]) := by
  constructor
  · intro hf
    rcases hst with hst | hst <;>
      simp [stream.on_wr_event, hst, stream.process_connect_event, hw, hf, hlive,
        stream.emit, stream.since]
  · intro hf hx hd
    rcases hst with hst | hst <;> by_cases hb : s.m_buf = nullptr <;>
      simp [stream.on_wr_event, hst, stream.process_connect_event, hw, hf, hlive, hx, hd, hb,
        stream.create_read_source, stream.emit, stream.since, call.is_callback,
        dispatch_resume, dispatch_source_create, List.filter]

/-- A writer-ready event in state `starting` or `connecting` whose size passes
the platform test while `::dup` fails: `create_read_source` throws
`illegal_argument`, no callback is made and the state stays what it was. -/
theorem connect_event_dup_fails (linux : Bool) (s : stream) (w : context) (size : Nat)
    (e : env) (hst : s.m_state = state.starting ∨ s.m_state = state.connecting)
    (hw : s.m_writer = some w) (hf : connect_failed_pred linux size = false)
    (hx : e.executor = true) (hd : e.dup = invalid_handle) :
    (s.on_wr_event linux size e).2 = some exc.illegal_argument ∧
    (s.on_wr_event linux size e).1.m_state = s.m_state ∧
    (s.on_wr_event linux size e).1.m_reader = s.m_reader ∧
    s.since (s.on_wr_event linux size e).1 =
      [call.dispatch_suspend source_id.writer, call.dup w.m_handle] := by
  rcases hst with hst | hst <;>
    simp [stream.on_wr_event, hst, stream.process_connect_event, hw, hf, hx, hd,
      stream.create_read_source, stream.emit, stream.since]

/-- C3, evaluated where it fails: the stream is `connecting`, the writer-ready
event reports size 131228 on a non-Linux build (the connect succeeded), the
handler is alive and `::dup` returns -1. `process_connect_event` suspends the
writer and throws `illegal_argument` out of `create_read_source`: neither
`connected` nor `connect_failed` is delivered, the state stays `connecting` and
no reader source exists. -/
theorem connect_event_dup_failure :
    sample_connecting.m_state = state.connecting ∧
    connect_failed_pred false 131228 = false ∧
    (sample_env 0).handler = true ∧
    (sample_connecting.on_wr_event false 131228
      { sample_env 0 with dup := invalid_handle }).2 = some exc.illegal_argument ∧
    (sample_connecting.on_wr_event false 131228
      { sample_env 0 with dup := invalid_handle }).1.m_state = state.connecting ∧
    (sample_connecting.on_wr_event false 131228
      { sample_env 0 with dup := invalid_handle }).1.m_reader = none ∧
    sample_connecting.since (sample_connecting.on_wr_event false 131228
      { sample_env 0 with dup := invalid_handle }).1 =
      [call.dispatch_suspend source_id.writer, call.dup 3] := by
  decide

/-! ### Read buffer -/

/-- `stream::connect` touches neither the buffer fields nor the reader. -/
theorem connect_keeps_buffer (linux : Bool) (s : stream) (ce : connect_env) :
    (s.connect linux ce).1.m_buf = s.m_buf ∧ (s.connect linux ce).1.m_reader = s.m_reader := by
  cases linux <;> cases hio : ce.ioctl_ok <;> cases hcx : ce.executor <;>
    cases hcc : ce.connect <;> by_cases hs : ce.socket = invalid_handle <;>
    cases hw : s.m_writer <;>
    simp [stream.connect, stream.connect_catch, stream.create_write_source, stream.emit,
      hio, hcx, hcc, hs, hw]

/-- A reader that exists after a writer-ready event on a stream without reader
was created by that event, over `m_buf`. -/
theorem on_wr_event_reader (linux : Bool) (s : stream) (size : Nat) (e : env) (r0 : rd_context)
    (hr : s.m_reader = none) (h : (s.on_wr_event linux size e).1.m_reader = some r0) :
    (r0.m_rd_is_mine = true ↔ s.m_buf = nullptr) := by
  cases hst : s.m_state
  · simp [stream.on_wr_event, hst, hr] at h
  · cases hw : s.m_writer with
    | none => simp [stream.on_wr_event, hst, stream.process_connect_event, hw, hr] at h
    | some w =>
      revert h
      cases hf : connect_failed_pred linux size <;> cases hl : e.handler <;>
        cases hx : e.executor <;> by_cases hd : e.dup = invalid_handle <;>
        by_cases hb : s.m_buf = nullptr <;>
        simp [stream.on_wr_event, hst, stream.process_connect_event, hw, hr, hf, hl, hx, hd,
          hb, stream.create_read_source, stream.emit] <;>
        (intro h; simp [← h])
  · cases hw : s.m_writer with
    | none => simp [stream.on_wr_event, hst, stream.process_connect_event, hw, hr] at h
    | some w =>
      revert h
      cases hf : connect_failed_pred linux size <;> cases hl : e.handler <;>
        cases hx : e.executor <;> by_cases hd : e.dup = invalid_handle <;>
        by_cases hb : s.m_buf = nullptr <;>
        simp [stream.on_wr_event, hst, stream.process_connect_event, hw, hr, hf, hl, hx, hd,
          hb, stream.create_read_source, stream.emit] <;>
        (intro h; simp [← h])
  · cases hw : s.m_writer with
    | none => simp [stream.on_wr_event, hst, stream.process_write_event, hw, hr] at h
    | some w =>
      revert h
      by_cases hp : s.m_wr_size ≤ (s.m_wr_pos + e.xfer) % SIZE_MOD <;> cases hl : e.handler <;>
        simp [stream.on_wr_event, hst, stream.process_write_event, hw, hr, hp, hl, stream.emit]

/-- C5 (P5, read-buffer ownership). Creation: a reader made by
`create_read_source`, and so by either form of `initialize`, has `m_rd_is_mine`
set exactly when the buffer passed in was null. Reader-ready event with pending
size above zero and a live handler, `on_read` returning with pointer `b` and size
`n`: if `b` is the current buffer nothing but the read and the callback happens
and the reader context is unchanged; if `b` differs, the old buffer is deleted
exactly when `m_rd_is_mine` was set, `b` and `n` are adopted and `m_rd_is_mine`
is false. Teardown: `on_rd_cancel` deletes the current buffer exactly when
`m_rd_is_mine` is set. -/
theorem read_buffer_ownership (s : stream) (r : rd_context) (size : Nat) (e : env) :
    (∀ (ex : Bool) (h : Int) (buf bufsz alloc : Nat),
      (s.create_read_source ex h buf bufsz alloc).2 = none →
      ∃ r0, (s.create_read_source ex h buf bufsz alloc).1.m_reader = some r0 ∧
        (r0.m_rd_is_mine = true ↔ buf = nullptr)) ∧
    (∀ (osx : Bool) (h : Int) (buf bufsz : Nat) (ok : Bool) (e0 : env),
      (stream.ctor.init_handle osx h buf bufsz ok e0).2 = none →
      ∃ r0, (stream.ctor.init_handle osx h buf bufsz ok e0).1.m_reader = some r0 ∧
        (r0.m_rd_is_mine = true ↔ buf = nullptr)) ∧
    (∀ (linux : Bool) (buf bufsz : Nat) (ce : connect_env) (sz : Nat) (e0 : env) (r0 : rd_context),
      ((stream.ctor.init_connect linux buf bufsz ce).1.on_wr_event linux sz e0).1.m_reader =
        some r0 →
      (r0.m_rd_is_mine = true ↔ buf = nullptr)) ∧
    (s.m_reader = some r → 0 < size → e.handler = true →
      ∀ b n, e.on_read = on_read_result.returns b n →
        (b = r.m_rd_data →
          (s.on_rd_event size e).m_reader = some r ∧
          s.since (s.on_rd_event size e) =
            [call.read r.m_handle r.m_rd_data r.m_rd_size, call.on_read r.m_rd_data e.xfer]) ∧
        (b ≠ r.m_rd_data →
          (s.on_rd_event size e).m_reader =
            some { r with m_rd_data := b, m_rd_size := n, m_rd_is_mine := false } ∧
          s.since (s.on_rd_event size e) =
            [call.read r.m_handle r.m_rd_data r.m_rd_size, call.on_read r.m_rd_data e.xfer] ++
              (if r.m_rd_is_mine then [call.delete_array r.m_rd_data] else []))) ∧
    (s.m_reader = some r →
      s.since s.on_rd_cancel =
        [call.dispatch_release source_id.reader, call.close r.m_handle] ++
          (if r.m_rd_is_mine then [call.delete_array r.m_rd_data] else [])) := by
  refine ⟨?_, ?_, ?_, ?_, ?_⟩
  · intro ex h buf bufsz alloc
    cases ex <;> by_cases hh : h = invalid_handle <;> by_cases hb : buf = nullptr <;>
      simp [stream.create_read_source, hh, hb, stream.emit]
  · intro osx h buf bufsz ok e0
    cases osx <;> cases ok <;> cases hx : e0.executor <;>
      by_cases hd : e0.dup = invalid_handle <;> by_cases hh : h = invalid_handle <;>
      by_cases hb : buf = nullptr <;>
      simp [stream.init_handle, stream.create_write_source, stream.create_read_source,
        stream.ctor, stream.emit, hx, hd, hh, hb]
  · intro linux buf bufsz ce sz e0 r0 h
    obtain ⟨h1, h2⟩ := connect_keeps_buffer linux
      { stream.ctor with m_size := bufsz, m_buf := buf, m_state := state.starting } ce
    have := on_wr_event_reader linux (stream.ctor.init_connect linux buf bufsz ce).1 sz e0 r0
      (by rw [stream.init_connect, h2]; rfl) h
    rw [this, stream.init_connect, h1]
  · intro hr hsz hlive b n ho
    have hz : size ≠ 0 := Nat.pos_iff_ne_zero.mp hsz
    constructor
    · intro hb
      simp [stream.on_rd_event, hr, hz, hlive, ho, hb, stream.emit, stream.since]
    · intro hb
      cases hm : r.m_rd_is_mine <;>
        simp [stream.on_rd_event, hr, hz, hlive, ho, hb, hm, stream.emit, stream.since]
  · intro hr
    cases hm : r.m_rd_is_mine <;>
      simp [stream.on_rd_cancel, hr, hm, stream.emit, stream.since]

/-- Witness of C5: the adopted stream owns its buffer at 4096; `on_read` swaps
it for the buffer at 8192 of size 32, the old one is deleted and the new one is
not owned. -/
theorem read_buffer_ownership_witness :
    (sample_connected.on_rd_event 10
        { sample_env 10 with on_read := on_read_result.returns 8192 32 }).m_reader =
      some { m_handle := 4, m_source := { suspend_count := 0, cancelled := false },
             m_rd_data := 8192, m_rd_size := 32, m_rd_is_mine := false } ∧
    sample_connected.since (sample_connected.on_rd_event 10
        { sample_env 10 with on_read := on_read_result.returns 8192 32 }) =
      [call.read 4 4096 16, call.on_read 4096 10, call.delete_array 4096] :=
  ((read_buffer_ownership sample_connected
      { m_handle := 4, m_source := { suspend_count := 0, cancelled := false },
        m_rd_data := 4096, m_rd_size := 16, m_rd_is_mine := true } 10
      { sample_env 10 with on_read := on_read_result.returns 8192 32 }).2.2.2.1
    rfl (by decide) rfl 8192 32 rfl).2 (by decide)

/-! ### Peer close -/

/-- C6: on a connected stream (reader and writer context present) a reader-ready
event with pending size 0 sets the state to `disconnected`, cancels the writer
source and the reader source, and makes exactly these calls: the two cancels
(with the resume of an idle writer in between) and, for a live handler, one
`on_event(disconnected)` as the last call. No `::read` and no `on_read` is
among them. -/
theorem peer_close_disconnects (s : stream) (r : rd_context) (w : context) (e : env)
    (hst : s.m_state = state.connected) (hr : s.m_reader = some r) (hw : s.m_writer = some w) :
    (s.on_rd_event 0 e).m_state = state.disconnected ∧
    (∃ w1, (s.on_rd_event 0 e).m_writer = some w1 ∧ w1.m_source.cancelled = true) ∧
    (∃ r1, (s.on_rd_event 0 e).m_reader = some r1 ∧ r1.m_source.cancelled = true) ∧
    s.since (s.on_rd_event 0 e) =
      [call.dispatch_source_cancel source_id.writer] ++
        (if s.m_wr_busy then [] else [call.dispatch_resume source_id.writer]) ++
        [call.dispatch_source_cancel source_id.reader] ++
        (if e.handler then [call.on_event event.disconnected] else []) ∧
    (∀ c ∈ s.since (s.on_rd_event 0 e), c.is_read = false) ∧
    (e.handler = true →
      (s.since (s.on_rd_event 0 e)).filter call.is_callback =
        [call.on_event event.disconnected]) := by
  have _ := hst
  cases hb : s.m_wr_busy <;> cases hl : e.handler <;> cases ha : s.m_active <;>
    simp [stream.on_rd_event, hr, stream.process_disconnect_event, stream.cancel_write_source,
      stream.cancel_read_source, stream.start, hw, hb, hl, ha, stream.emit, stream.since,
      dispatch_source_cancel, dispatch_resume, call.is_read, call.is_callback, List.filter]

/-- Witness of C6 on the adopted stream. -/
theorem peer_close_disconnects_witness :
    (sample_connected.on_rd_event 0 (sample_env 0)).m_state = state.disconnected ∧
    sample_connected.since (sample_connected.on_rd_event 0 (sample_env 0)) =
      [call.dispatch_source_cancel source_id.writer, call.dispatch_resume source_id.writer,
        call.dispatch_source_cancel source_id.reader, call.on_event event.disconnected] :=
  ⟨(peer_close_disconnects sample_connected
      { m_handle := 4, m_source := { suspend_count := 0, cancelled := false },
        m_rd_data := 4096, m_rd_size := 16, m_rd_is_mine := true }
      { m_handle := 3, m_source := { suspend_count := 1, cancelled := false } }
      (sample_env 0) rfl rfl rfl).1,
   (peer_close_disconnects sample_connected
      { m_handle := 4, m_source := { suspend_count := 0, cancelled := false },
        m_rd_data := 4096, m_rd_size := 16, m_rd_is_mine := true }
      { m_handle := 3, m_source := { suspend_count := 1, cancelled := false } }
      (sample_env 0) rfl rfl rfl).2.2.2.1⟩

/-! ### Disconnect is terminal -/

/-- The trace of a later state is the trace of the earlier one followed by the
calls made since. -/
theorem trace_eq_since (s0 s : stream) (h : ∃ l, s.trace = s0.trace ++ l) :
    s.trace = s0.trace ++ s0.since s := by
  obtain ⟨l, hl⟩ := h
  rw [since_of_trace_eq s0 s l hl, hl]

/-- Calls since `s0` up to `v` are those up to `u` followed by those from `u` to `v`. -/
theorem since_trans (s0 u v : stream) (h1 : ∃ l, u.trace = s0.trace ++ l)
    (h2 : ∃ l, v.trace = u.trace ++ l) : s0.since v = s0.since u ++ u.since v := by
  obtain ⟨l1, hl1⟩ := h1
  obtain ⟨l2, hl2⟩ := h2
  rw [since_of_trace_eq s0 u l1 hl1, since_of_trace_eq u v l2 hl2,
    since_of_trace_eq s0 v (l1 ++ l2) (by rw [hl2, hl1, List.append_assoc])]

/-- Once `disconnected` is in the trace, what follows it grows with the trace. -/
theorem after_disconnected_append_of_mem (t l : List call)
    (h : call.on_event event.disconnected ∈ t) :
    after_disconnected (t ++ l) = after_disconnected t ++ l := by
  induction t with
  | nil => simp at h
  | cons c t ih =>
    by_cases hc : c = call.on_event event.disconnected
    · simp [after_disconnected, hc]
    · have : call.on_event event.disconnected ∈ t := by
        rcases List.mem_cons.mp h with h | h
        · exact absurd h.symm hc
        · exact h
      simp [after_disconnected, hc, ih this]

/-- Before `disconnected` is in the trace, what follows it is decided by the new calls. -/
theorem after_disconnected_append_of_not_mem (t l : List call)
    (h : call.on_event event.disconnected ∉ t) :
    after_disconnected (t ++ l) = after_disconnected l := by
  induction t with
  | nil => rfl
  | cons c t ih =>
    have hc : c ≠ call.on_event event.disconnected := fun hc => h (by simp [hc])
    have ht : call.on_event event.disconnected ∉ t := fun ht => h (List.mem_cons_of_mem _ ht)
    simp [after_disconnected, hc, ih ht]

/-- A step of a quiet stream makes no callback and leaves the stream quiet. -/
theorem quiet_step (linux : Bool) (s : stream) (x : step) (hq : s.quiet = true) :
    (∀ c ∈ s.since (s.step linux x), c.is_callback = false) ∧ (s.step linux x).quiet = true := by
  have hst : s.m_state = state.disconnected := by
    simp [stream.quiet] at hq; exact hq.1.1
  cases x with
  | write d n => simp [stream.step, stream.write, hst, stream.since, hq]
  | writer_ready size e =>
    cases hw : s.m_writer with
    | none => simp [stream.step, stream.writer_delivers, hw, stream.since, hq]
    | some w =>
      have hc : w.m_source.cancelled = true := by
        simp [stream.quiet, hw] at hq; exact hq.2
      simp [stream.step, stream.writer_delivers, hw, dispatch_source.delivers, hc,
        stream.since, hq]
  | reader_ready size e =>
    cases hr : s.m_reader with
    | none => simp [stream.step, stream.reader_delivers, hr, stream.since, hq]
    | some r =>
      have hc : r.m_source.cancelled = true := by
        simp [stream.quiet, hr] at hq; exact hq.1.2
      simp [stream.step, stream.reader_delivers, hr, dispatch_source.delivers, hc,
        stream.since, hq]
  | shutdown =>
    revert hq
    cases hw : s.m_writer <;> cases hb : s.m_wr_busy <;> cases hr : s.m_reader <;>
      cases ha : s.m_active <;>
      simp [stream.step, stream.shutdown, stream.cancel_write_source,
        stream.cancel_read_source, stream.start, hw, hb, hr, ha, stream.emit, stream.since,
        stream.quiet, hst, dispatch_source_cancel, dispatch_resume, call.is_callback]
  | writer_cancel =>
    revert hq
    cases hw : s.m_writer with
    | none => simp [stream.step, hw, stream.since]
    | some w =>
      cases hd : w.m_source.delivers_cancel <;> cases hr : s.m_reader <;>
        simp +contextual [stream.step, hw, hd, hr, stream.on_wr_cancel,
          stream.emit, stream.since, stream.quiet, hst, call.is_callback]
  | reader_cancel =>
    revert hq
    cases hr : s.m_reader with
    | none => simp [stream.step, hr, stream.since]
    | some r =>
      cases hd : r.m_source.delivers_cancel <;> cases hw : s.m_writer <;>
        cases hm : r.m_rd_is_mine <;>
        simp +contextual [stream.step, hw, hd, hr, hm,
          stream.on_rd_cancel, stream.emit, stream.since, stream.quiet, hst, call.is_callback]

/-- A single step delivers `disconnected` at most once, as its last call, and
leaves the stream quiet when it does. -/
theorem step_delivery (linux : Bool) (s : stream) (x : step) :
    after_disconnected (s.since (s.step linux x)) = [] ∧
    (s.since (s.step linux x)).count (call.on_event event.disconnected) ≤ 1 ∧
    (call.on_event event.disconnected ∈ s.since (s.step linux x) →
      (s.step linux x).quiet = true) := by
  cases x with
  | write d n =>
    by_cases hst : s.m_state = state.connected <;> cases hb : s.m_wr_busy <;>
      cases hw : s.m_writer <;>
      simp [stream.step, stream.write, hst, hb, hw, stream.emit, stream.since,
        after_disconnected]
  | writer_ready size e =>
    cases hw : s.m_writer with
    | none => simp [stream.step, stream.writer_delivers, hw, stream.since, after_disconnected]
    | some w =>
      cases hd : w.m_source.delivers
      · simp [stream.step, stream.writer_delivers, hw, hd, stream.since, after_disconnected]
      · cases hst : s.m_state
        · simp [stream.step, stream.writer_delivers, hw, hd, stream.on_wr_event, hst,
            stream.since, after_disconnected]
        · cases hf : connect_failed_pred linux size <;> cases hl : e.handler <;>
            cases hx : e.executor <;> by_cases hdup : e.dup = invalid_handle <;>
            by_cases hbuf : s.m_buf = nullptr <;>
            simp [stream.step, stream.writer_delivers, hw, hd, stream.on_wr_event, hst,
              stream.process_connect_event, hf, hl, hx, hdup, hbuf, stream.create_read_source,
              stream.emit, stream.since, after_disconnected]
        · cases hf : connect_failed_pred linux size <;> cases hl : e.handler <;>
            cases hx : e.executor <;> by_cases hdup : e.dup = invalid_handle <;>
            by_cases hbuf : s.m_buf = nullptr <;>
            simp [stream.step, stream.writer_delivers, hw, hd, stream.on_wr_event, hst,
              stream.process_connect_event, hf, hl, hx, hdup, hbuf, stream.create_read_source,
              stream.emit, stream.since, after_disconnected]
        · by_cases hp : s.m_wr_size ≤ (s.m_wr_pos + e.xfer) % SIZE_MOD <;>
            cases hl : e.handler <;>
            simp [stream.step, stream.writer_delivers, hw, hd, stream.on_wr_event, hst,
              stream.process_write_event, hp, hl, stream.emit, stream.since,
              after_disconnected]
  | reader_ready size e =>
    cases hr : s.m_reader with
    | none => simp [stream.step, stream.reader_delivers, hr, stream.since, after_disconnected]
    | some r =>
      cases hd : r.m_source.delivers
      · simp [stream.step, stream.reader_delivers, hr, hd, stream.since, after_disconnected]
      · by_cases hz : size = 0
        · cases hw : s.m_writer <;> cases hb : s.m_wr_busy <;> cases hl : e.handler <;>
            cases ha : s.m_active <;>
            simp [stream.step, stream.reader_delivers, hr, hd, stream.on_rd_event, hz,
              stream.process_disconnect_event, stream.cancel_write_source,
              stream.cancel_read_source, stream.start, hw, hb, hl, ha, stream.emit,
              stream.since, after_disconnected, stream.quiet, dispatch_source_cancel,
              dispatch_resume]
        · cases hl : e.handler
          · simp [stream.step, stream.reader_delivers, hr, hd, stream.on_rd_event, hz, hl,
              stream.emit, stream.since, after_disconnected]
          · cases ho : e.on_read with
            | throws =>
              simp [stream.step, stream.reader_delivers, hr, hd, stream.on_rd_event, hz, hl,
                ho, stream.emit, stream.since, after_disconnected]
            | returns b n =>
              by_cases hs : b = r.m_rd_data <;> cases hm : r.m_rd_is_mine <;>
                simp [stream.step, stream.reader_delivers, hr, hd, stream.on_rd_event, hz, hl,
                  ho, hs, hm, stream.emit, stream.since, after_disconnected]
  | shutdown =>
    cases hw : s.m_writer <;> cases hb : s.m_wr_busy <;> cases hr : s.m_reader <;>
      cases ha : s.m_active <;>
      simp [stream.step, stream.shutdown, stream.cancel_write_source,
        stream.cancel_read_source, stream.start, hw, hb, hr, ha, stream.emit, stream.since,
        after_disconnected]
  | writer_cancel =>
    cases hw : s.m_writer with
    | none => simp [stream.step, hw, stream.since, after_disconnected]
    | some w =>
      cases hd : w.m_source.delivers_cancel <;>
        simp [stream.step, hw, hd, stream.on_wr_cancel, stream.emit, stream.since,
          after_disconnected]
  | reader_cancel =>
    cases hr : s.m_reader with
    | none => simp [stream.step, hr, stream.since, after_disconnected]
    | some r =>
      cases hd : r.m_source.delivers_cancel <;> cases hm : r.m_rd_is_mine <;>
        simp [stream.step, hd, hr, hm, stream.on_rd_cancel, stream.emit, stream.since,
          after_disconnected]

/-- Invariant of runs behind C7: what follows the first `disconnected` holds no
callback, `disconnected` occurs at most once, and once it has occurred the
stream is quiet. -/
theorem run_terminal (linux : Bool) (s : stream) (steps : List step) :
    (∀ c ∈ after_disconnected (s.since (s.run linux steps)), c.is_callback = false) ∧
    (s.since (s.run linux steps)).count (call.on_event event.disconnected) ≤ 1 ∧
    (call.on_event event.disconnected ∈ s.since (s.run linux steps) →
      (s.run linux steps).quiet = true) := by
  induction steps using List.reverseRecOn with
  | nil => simp [stream.run, stream.since, after_disconnected]
  | append_singleton xs x ih =>
    obtain ⟨ih1, ih2, ih3⟩ := ih
    have hrun : s.run linux (xs ++ [x]) = (s.run linux xs).step linux x := by
      simp [stream.run, List.foldl_append]
    have hsince : s.since ((s.run linux xs).step linux x) =
        s.since (s.run linux xs) ++ (s.run linux xs).since ((s.run linux xs).step linux x) :=
      since_trans s _ _ (run_extends linux xs s) (step_extends linux _ x)
    rw [hrun, hsince]
    by_cases hD : call.on_event event.disconnected ∈ s.since (s.run linux xs)
    · obtain ⟨hq1, hq2⟩ := quiet_step linux (s.run linux xs) x (ih3 hD)
      refine ⟨?_, ?_, fun _ => hq2⟩
      · rw [after_disconnected_append_of_mem _ _ hD]
        intro c hc
        rcases List.mem_append.mp hc with hc | hc
        · exact ih1 c hc
        · exact hq1 c hc
      · have hnot : call.on_event event.disconnected ∉
            (s.run linux xs).since ((s.run linux xs).step linux x) := by
          intro hmem
          have := hq1 _ hmem
          simp [call.is_callback] at this
        rw [List.count_append, List.count_eq_zero_of_not_mem hnot]
        exact ih2
    · obtain ⟨hd1, hd2, hd3⟩ := step_delivery linux (s.run linux xs) x
      refine ⟨?_, ?_, ?_⟩
      · rw [after_disconnected_append_of_not_mem _ _ hD, hd1]
        simp
      · rw [List.count_append, List.count_eq_zero_of_not_mem hD]
        simpa using hd2
      · intro hmem
        rcases List.mem_append.mp hmem with h | h
        · exact absurd h hD
        · exact hd3 h

/-- C7 (P3, disconnect terminality): in every run of a stream made of `write`
calls, writer-ready events, reader-ready events with any pending size,
`shutdown` calls and cancel callbacks (events reaching the code while their
source is resumed and not cancelled), no `on_read`, `on_write` or `on_event` is
made after `on_event(disconnected)`; `disconnected` is delivered at most once;
and whenever it has been delivered the state is `disconnected`. -/
theorem disconnect_terminal (linux : Bool) (s : stream) (steps : List step) :
    (∀ c ∈ after_disconnected (s.since (s.run linux steps)), c.is_callback = false) ∧
    (s.since (s.run linux steps)).count (call.on_event event.disconnected) ≤ 1 ∧
    (call.on_event event.disconnected ∈ s.since (s.run linux steps) →
      (s.run linux steps).m_state = state.disconnected) := by
  obtain ⟨h1, h2, h3⟩ := run_terminal linux s steps
  refine ⟨h1, h2, fun h => ?_⟩
  have hq := h3 h
  simp [stream.quiet] at hq
  exact hq.1.1

/-- Witness of C7: the peer closes while a write is in flight; the events and
calls that follow reach no handler and the state is `disconnected`. -/
theorem disconnect_terminal_witness :
    (sample_connected.run false
      [step.write 7 5, step.writer_ready 0 (sample_env 2), step.reader_ready 0 (sample_env 0),
        step.writer_ready 0 (sample_env 3), step.reader_ready 0 (sample_env 0),
        step.write 9 1, step.shutdown, step.reader_cancel]).m_state = state.disconnected :=
  (disconnect_terminal false sample_connected
    [step.write 7 5, step.writer_ready 0 (sample_env 2), step.reader_ready 0 (sample_env 0),
      step.writer_ready 0 (sample_env 3), step.reader_ready 0 (sample_env 0),
      step.write 9 1, step.shutdown, step.reader_cancel]).2.2 (by decide)

/-! ### Server -/

/-- One iteration of the accept loop appends to the trace, and exactly one of
the appended calls is `accept`. -/
theorem accept_one_extends (cb : Bool) (s : server) (a : accepted) :
    ∃ l, (s.accept_one cb a).trace = s.trace ++ l ∧ l.countP call.is_accept = 1 ∧
      (s.accept_one cb a).m_handle = s.m_handle := by
  cases cb <;> cases hf : a.ss_family <;> cases ho : a.on_connect with
    | throws =>
      simp [server.accept_one, server.after_on_connect, hf, ho, server.emit, call.is_accept,
        List.countP_cons]
    | returns res =>
      cases res <;>
      simp [server.accept_one, server.after_on_connect, hf, ho, server.emit, call.is_accept,
        List.countP_cons]

/-- The accept loop over any list of indices makes one `accept` per index. -/
theorem accept_loop_extends (cb : Bool) (conn : Nat → accepted) (idx : List Nat) :
    ∀ s : server, ∃ l,
      (idx.foldl (fun s i => s.accept_one cb (conn i)) s).trace = s.trace ++ l ∧
      l.countP call.is_accept = idx.length := by
  induction idx with
  | nil => intro s; exact ⟨[], by simp⟩
  | cons i idx ih =>
    intro s
    obtain ⟨l1, h1, c1, _⟩ := accept_one_extends cb s (conn i)
    obtain ⟨l2, h2, c2⟩ := ih (s.accept_one cb (conn i))
    refine ⟨l1 ++ l2, ?_, ?_⟩
    · simp only [List.foldl_cons]
      rw [h2, h1, List.append_assoc]
    · rw [List.countP_append, c1, c2, List.length_cons, Nat.add_comm]

/-- C8 (P4, accept draining): for every pending count `size` reported to
`server::on_event`, whether the handler is dead or alive and whatever
`on_connect` does in each iteration (returns true, returns false, throws),
exactly `size` calls of `accept` are made in that callback. -/
theorem accept_draining (s : server) (cb : Bool) (size : Nat) (conn : Nat → accepted) :
    (s.since (s.on_event cb size conn)).countP call.is_accept = size := by
  obtain ⟨l, hl, hc⟩ := accept_loop_extends cb conn (List.range size) s
  have : s.since (s.on_event cb size conn) = l := by
    simp [server.since, server.on_event, hl]
  rw [this, hc, List.length_range]

/-- C9: for one accepted connection (one iteration of the loop of
`server::on_event`) the accepted descriptor is closed exactly once, with no
`on_connect`, when the handler is dead or the peer family is neither `AF_INET`
nor `AF_INET6`; it is closed exactly once after the one `on_connect` when that
returns false or throws; it is not closed when `on_connect` returns true.
`on_connect` is made at most once, on the accepted descriptor, with the port
field read through `ntohs`, which turns the two network-order bytes of a port
back into the port. -/
theorem accepted_descriptor_closing (cb : Bool) (s : server) (a : accepted) :
    (cb = false →
      (s.since (s.accept_one cb a)).filter call.is_close = [call.close a.clt] ∧
      (s.since (s.accept_one cb a)).countP call.is_on_connect = 0) ∧
    (cb = true → a.ss_family = sa_family.other →
      (s.since (s.accept_one cb a)).filter call.is_close = [call.close a.clt] ∧
      (s.since (s.accept_one cb a)).countP call.is_on_connect = 0) ∧
    (cb = true → a.ss_family ≠ sa_family.other →
      a.on_connect = on_connect_result.returns false →
      (s.since (s.accept_one cb a)).filter call.is_close = [call.close a.clt] ∧
      (s.since (s.accept_one cb a)).countP call.is_on_connect = 1) ∧
    (cb = true → a.ss_family ≠ sa_family.other →
      a.on_connect = on_connect_result.throws →
      (s.since (s.accept_one cb a)).filter call.is_close = [call.close a.clt] ∧
      (s.since (s.accept_one cb a)).countP call.is_on_connect = 1) ∧
    (cb = true → a.ss_family ≠ sa_family.other →
      a.on_connect = on_connect_result.returns true →
      (s.since (s.accept_one cb a)).filter call.is_close = [] ∧
      (s.since (s.accept_one cb a)).countP call.is_on_connect = 1) ∧
    (s.since (s.accept_one cb a)).countP call.is_on_connect ≤ 1 ∧
    (∀ c ∈ s.since (s.accept_one cb a), c.is_on_connect = true →
      c = call.on_connect a.clt
        (if a.ss_family = sa_family.AF_INET then ip_version.ipv4 else ip_version.ipv6)
        (ntohs a.port_hi a.port_lo)) ∧
    (∀ port, port < 65536 → ntohs (port / 256) (port % 256) = port) := by
  refine ⟨?_, ?_, ?_, ?_, ?_, ?_, ?_, ?_⟩
  · intro hcb
    simp [server.accept_one, hcb, server.emit, server.since, call.is_close,
      call.is_on_connect, List.filter]
  · intro hcb hf
    simp [server.accept_one, hcb, hf, server.emit, server.since, call.is_close,
      call.is_on_connect, List.filter]
  · intro hcb hf ho
    cases hfam : a.ss_family <;>
      simp_all [server.accept_one, server.after_on_connect, server.emit, server.since,
        call.is_close, call.is_on_connect, List.filter]
  · intro hcb hf ho
    cases hfam : a.ss_family <;>
      simp_all [server.accept_one, server.after_on_connect, server.emit, server.since,
        call.is_close, call.is_on_connect, List.filter]
  · intro hcb hf ho
    cases hfam : a.ss_family <;>
      simp_all [server.accept_one, server.after_on_connect, server.emit, server.since,
        call.is_close, call.is_on_connect, List.filter]
  · cases cb <;> cases hfam : a.ss_family <;> cases ho : a.on_connect with
    | throws =>
      simp [server.accept_one, server.after_on_connect, hfam, ho, server.emit, server.since,
        call.is_on_connect, List.countP_cons]
    | returns res =>
      cases res <;>
      simp [server.accept_one, server.after_on_connect, hfam, ho, server.emit, server.since,
        call.is_on_connect, List.countP_cons]
  · cases cb <;> cases hfam : a.ss_family <;> cases ho : a.on_connect with
    | throws =>
      simp [server.accept_one, server.after_on_connect, hfam, ho, server.emit, server.since,
        call.is_on_connect]
    | returns res =>
      cases res <;>
      simp [server.accept_one, server.after_on_connect, hfam, ho, server.emit, server.since,
        call.is_on_connect]
  · intro port hport
    have h1 : port / 256 % 256 = port / 256 := Nat.mod_eq_of_lt (by omega)
    simp only [ntohs, h1, Nat.mod_mod]
    omega

/-- Witness of C9: the handler throws on the IPv6 peer accepted as descriptor 7,
and the server closes 7 once. -/
theorem accepted_descriptor_closing_witness :
    (sample_server.since (sample_server.accept_one true (sample_conn 1))).filter
        call.is_close = [call.close 7] ∧
    (sample_server.since (sample_server.accept_one true (sample_conn 1))).countP
        call.is_on_connect = 1 :=
  (accepted_descriptor_closing true sample_server (sample_conn 1)).2.2.2.1 rfl (by decide) rfl

/-! ### Shutdown -/

/-- What `stream::shutdown` does to any stream: `m_state` is left as it was,
and the reader and the writer source are cancelled when they exist. -/
theorem shutdown_effect (s : stream) :
    s.shutdown.m_state = s.m_state ∧
    (∀ r, s.m_reader = some r →
      ∃ r1, s.shutdown.m_reader = some r1 ∧ r1.m_source.cancelled = true) ∧
    (∀ w, s.m_writer = some w →
      ∃ w1, s.shutdown.m_writer = some w1 ∧ w1.m_source.cancelled = true) := by
  cases hw : s.m_writer <;> cases hb : s.m_wr_busy <;> cases hr : s.m_reader <;>
    cases ha : s.m_active <;>
    simp [stream.shutdown, stream.cancel_write_source, stream.cancel_read_source,
      stream.start, hw, hb, hr, ha, stream.emit, dispatch_source_cancel, dispatch_resume]

/-- C10, evaluated where it fails: `shutdown` on the connected stream adopted
from descriptor 3 cancels the reader and the writer source but leaves `m_state`
at `connected`; the same happens from `connecting`. -/
theorem shutdown_keeps_state :
    sample_connected.m_state = state.connected ∧
    sample_connected.shutdown.m_state = state.connected ∧
    sample_connected.shutdown.m_reader =
      some { m_handle := 4, m_source := { suspend_count := 0, cancelled := true },
             m_rd_data := 4096, m_rd_size := 16, m_rd_is_mine := true } ∧
    sample_connected.shutdown.m_writer =
      some { m_handle := 3, m_source := { suspend_count := 0, cancelled := true } } ∧
    sample_connecting.m_state = state.connecting ∧
    sample_connecting.shutdown.m_state = state.connecting := by
  decide

/-! ### The writer of an idle connected stream -/

/-- Either form of `initialize`, when it returns normally, leaves a stream whose
writer context exists while the stream is connected and idle. -/
theorem init_idle_writer_ok (osx linux : Bool) (h : Int) (buf bufsz : Nat) (ok : Bool)
    (e : env) (ce : connect_env) :
    ((stream.ctor.init_handle osx h buf bufsz ok e).2 = none →
      (stream.ctor.init_handle osx h buf bufsz ok e).1.idle_writer_ok = true) ∧
    (stream.ctor.init_connect linux buf bufsz ce).1.idle_writer_ok = true := by
  constructor
  · cases osx <;> cases ok <;> cases hx : e.executor <;>
      by_cases hd : e.dup = invalid_handle <;> by_cases hh : h = invalid_handle <;>
      by_cases hb : buf = nullptr <;>
      simp [stream.init_handle, stream.create_write_source, stream.create_read_source,
        stream.ctor, stream.emit, hx, hd, hh, hb, stream.idle_writer_ok,
        dispatch_source_create]
  · cases linux <;> cases hio : ce.ioctl_ok <;> cases hcx : ce.executor <;>
      cases hcc : ce.connect <;> by_cases hs : ce.socket = invalid_handle <;>
      simp [stream.init_connect, stream.connect, stream.connect_catch,
        stream.create_write_source, stream.ctor, stream.emit, hio, hcx, hcc, hs,
        stream.idle_writer_ok]

/-- No step takes the writer context away from a connected idle stream. -/
theorem step_idle_writer_ok (linux : Bool) (s : stream) (x : step)
    (h : s.idle_writer_ok = true) : (s.step linux x).idle_writer_ok = true := by
  revert h
  cases x with
  | write d n =>
    by_cases hst : s.m_state = state.connected <;> cases hb : s.m_wr_busy <;>
      cases hw : s.m_writer <;>
      simp [stream.step, stream.write, hst, hb, hw, stream.emit, stream.idle_writer_ok]
  | writer_ready size e =>
    cases hw : s.m_writer with
    | none => simp [stream.step, stream.writer_delivers, hw]
    | some w =>
      cases hd : w.m_source.delivers
      · simp [stream.step, stream.writer_delivers, hw, hd]
      · have hc : w.m_source.cancelled = false := by
          simp [dispatch_source.delivers] at hd; exact hd.1
        have h0 : w.m_source.suspend_count = 0 := by
          simp [dispatch_source.delivers, dispatch_source.resumed] at hd; exact hd.2
        cases hst : s.m_state
        · simp [stream.step, stream.writer_delivers, hw, hd, stream.on_wr_event, hst]
        · cases hf : connect_failed_pred linux size <;> cases hl : e.handler <;>
            cases hx : e.executor <;> by_cases hdup : e.dup = invalid_handle <;>
            by_cases hbuf : s.m_buf = nullptr <;>
            simp [stream.step, stream.writer_delivers, hw, hd, stream.on_wr_event, hst,
              stream.process_connect_event, hf, hl, hx, hdup, hbuf, stream.create_read_source,
              stream.emit, stream.idle_writer_ok, dispatch_suspend, hc, h0]
        · cases hf : connect_failed_pred linux size <;> cases hl : e.handler <;>
            cases hx : e.executor <;> by_cases hdup : e.dup = invalid_handle <;>
            by_cases hbuf : s.m_buf = nullptr <;>
            simp [stream.step, stream.writer_delivers, hw, hd, stream.on_wr_event, hst,
              stream.process_connect_event, hf, hl, hx, hdup, hbuf, stream.create_read_source,
              stream.emit, stream.idle_writer_ok, dispatch_suspend, hc, h0]
        · by_cases hp : s.m_wr_size ≤ (s.m_wr_pos + e.xfer) % SIZE_MOD <;>
            cases hl : e.handler <;> cases hb : s.m_wr_busy <;>
            simp [stream.step, stream.writer_delivers, hw, hd, stream.on_wr_event, hst,
              stream.process_write_event, hp, hl, hb, stream.emit, stream.idle_writer_ok,
              dispatch_suspend, hc, h0]
  | reader_ready size e =>
    cases hr : s.m_reader with
    | none => simp [stream.step, stream.reader_delivers, hr]
    | some r =>
      cases hd : r.m_source.delivers
      · simp [stream.step, stream.reader_delivers, hr, hd]
      · by_cases hz : size = 0
        · cases hw : s.m_writer <;> cases hb : s.m_wr_busy <;> cases hl : e.handler <;>
            cases ha : s.m_active <;>
            simp [stream.step, stream.reader_delivers, hr, hd, stream.on_rd_event, hz,
              stream.process_disconnect_event, stream.cancel_write_source,
              stream.cancel_read_source, stream.start, hw, hb, hl, ha, stream.emit,
              stream.idle_writer_ok]
        · cases hl : e.handler
          · simp [stream.step, stream.reader_delivers, hr, hd, stream.on_rd_event, hz, hl,
              stream.emit, stream.idle_writer_ok]
          · cases ho : e.on_read with
            | throws =>
              simp [stream.step, stream.reader_delivers, hr, hd, stream.on_rd_event, hz, hl,
                ho, stream.emit, stream.idle_writer_ok]
            | returns b n =>
              by_cases hs : b = r.m_rd_data <;> cases hm : r.m_rd_is_mine <;>
                simp [stream.step, stream.reader_delivers, hr, hd, stream.on_rd_event, hz, hl,
                  ho, hs, hm, stream.emit, stream.idle_writer_ok]
  | shutdown =>
    cases hw : s.m_writer <;> cases hb : s.m_wr_busy <;> cases hr : s.m_reader <;>
      cases ha : s.m_active <;>
      simp [stream.step, stream.shutdown, stream.cancel_write_source,
        stream.cancel_read_source, stream.start, hw, hb, hr, ha, stream.emit,
        stream.idle_writer_ok]
  | writer_cancel =>
    cases hw : s.m_writer with
    | none => simp [stream.step, hw]
    | some w =>
      cases hd : w.m_source.delivers_cancel
      · simp [stream.step, hw, hd]
      · have hc : w.m_source.cancelled = true := by
          simp [dispatch_source.delivers_cancel] at hd; exact hd.1
        simp [stream.step, hw, hd, stream.on_wr_cancel, stream.emit, stream.idle_writer_ok, hc]
  | reader_cancel =>
    cases hr : s.m_reader with
    | none => simp [stream.step, hr]
    | some r =>
      cases hd : r.m_source.delivers_cancel <;> cases hm : r.m_rd_is_mine <;>
        simp [stream.step, hd, hr, hm, stream.on_rd_cancel, stream.emit,
          stream.idle_writer_ok]

/-- In every state a stream reaches from a successful `initialize`, a connected
idle stream has its writer context with the source suspended and not cancelled,
so `write` never meets a null `m_writer` after passing its two checks. -/
theorem run_idle_writer_ok (linux : Bool) (steps : List step) :
    ∀ s : stream, s.idle_writer_ok = true → (s.run linux steps).idle_writer_ok = true := by
  induction steps with
  | nil => intro s h; exact h
  | cons x xs ih =>
    intro s h
    have hrun : s.run linux (x :: xs) = (s.step linux x).run linux xs := by
      simp [stream.run]
    rw [hrun]
    exact ih _ (step_idle_writer_ok linux s x h)

/-! ### Shutdown twice -/

/-- A second `stream::shutdown` changes no field of the stream and only repeats
`dispatch_source_cancel` calls. -/
theorem stream_shutdown_twice (s : stream) :
    { s.shutdown.shutdown with trace := s.shutdown.trace } = s.shutdown ∧
    (∀ c ∈ s.shutdown.since s.shutdown.shutdown, c.is_resume = false) := by
  rcases s with ⟨st, act, rd, wr, busy, d, sz, pos, buf, size, tr⟩
  cases wr <;> cases busy <;> cases rd <;> cases act <;>
    simp [stream.shutdown, stream.cancel_write_source, stream.cancel_read_source,
      stream.start, stream.emit, stream.since, dispatch_source_cancel,
      dispatch_resume, call.is_resume]

/-- A second `server::shutdown` changes no field of the server and only repeats
the `dispatch_source_cancel` call; the cancel callback then closes the listen
descriptor, once. -/
theorem server_shutdown_twice (sv : server) :
    { sv.shutdown.shutdown with trace := sv.shutdown.trace } = sv.shutdown ∧
    (∀ c ∈ sv.shutdown.since sv.shutdown.shutdown, c.is_resume = false) ∧
    (sv.since sv.shutdown.shutdown.on_cancel).filter call.is_close =
      [call.close sv.m_handle] := by
  cases ha : sv.m_active <;>
    simp [server.shutdown, server.start, server.on_cancel, ha, server.emit, server.since,
      dispatch_source_cancel, dispatch_resume, call.is_resume, call.is_close, List.filter]

/-- A `shutdown` call or a cancel callback closes a descriptor only by giving
up the context that owns it. -/
theorem teardown_step_closes (linux : Bool) (s : stream) (x : step) (fd : Int)
    (hx : x.is_teardown = true) :
    (s.since (s.step linux x)).count (call.close fd) + (s.step linux x).owned.count fd =
      s.owned.count fd := by
  cases x with
  | write d n => simp [step.is_teardown] at hx
  | writer_ready size e => simp [step.is_teardown] at hx
  | reader_ready size e => simp [step.is_teardown] at hx
  | shutdown =>
    cases hw : s.m_writer <;> cases hb : s.m_wr_busy <;> cases hr : s.m_reader <;>
      cases ha : s.m_active <;>
      simp [stream.step, stream.shutdown, stream.cancel_write_source,
        stream.cancel_read_source, stream.start, hw, hb, hr, ha, stream.emit, stream.since,
        stream.owned]
  | writer_cancel =>
    cases hw : s.m_writer with
    | none => simp [stream.step, hw, stream.since]
    | some w =>
      cases hd : w.m_source.delivers_cancel <;> cases hr : s.m_reader <;>
        simp [stream.step, hw, hd, hr, stream.on_wr_cancel, stream.emit, stream.since,
          stream.owned, List.count_cons, Nat.add_comm]
  | reader_cancel =>
    cases hr : s.m_reader with
    | none => simp [stream.step, hr, stream.since]
    | some r =>
      cases hd : r.m_source.delivers_cancel <;> cases hw : s.m_writer <;>
        cases hm : r.m_rd_is_mine <;>
        simp [stream.step, hw, hd, hr, hm, stream.on_rd_cancel, stream.emit, stream.since,
          stream.owned, List.count_cons]

/-- Over any sequence of `shutdown` calls and cancel callbacks a descriptor is
closed at most as often as a context of the stream owns it. -/
theorem teardown_run_closes (linux : Bool) (fd : Int) (xs : List step) :
    ∀ s : stream, (∀ x ∈ xs, x.is_teardown = true) →
      (s.since (s.run linux xs)).count (call.close fd) + (s.run linux xs).owned.count fd =
        s.owned.count fd := by
  induction xs with
  | nil => intro s _; simp [stream.run, stream.since]
  | cons x xs ih =>
    intro s hxs
    have hrun : s.run linux (x :: xs) = (s.step linux x).run linux xs := by
      simp [stream.run]
    have hsince : s.since ((s.step linux x).run linux xs) =
        s.since (s.step linux x) ++ (s.step linux x).since ((s.step linux x).run linux xs) :=
      since_trans s _ _ (step_extends linux s x) (run_extends linux xs _)
    have h1 := teardown_step_closes linux s x fd (hxs x (by simp))
    have h2 := ih (s.step linux x) (fun y hy => hxs y (List.mem_cons_of_mem _ hy))
    rw [hrun, hsince, List.count_append]
    omega

/-- C11 (P6, shutdown idempotence), for every state of a stream and of a server:
a second `shutdown` right after the first leaves every field as the first left
it and makes no `dispatch_resume` call; over the two calls and any cancel
callbacks (and further `shutdown` calls) after them each descriptor is closed
at most as often as a context owns it, so at most once when the writer and the
reader descriptor differ; the server closes its listen descriptor once, in the
cancel callback. -/
theorem shutdown_idempotent (linux : Bool) (s : stream) (sv : server) (cbs : List step)
    (fd : Int) :
    { s.shutdown.shutdown with trace := s.shutdown.trace } = s.shutdown ∧
    (∀ c ∈ s.shutdown.since s.shutdown.shutdown, c.is_resume = false) ∧
    ((∀ x ∈ cbs, x.is_teardown = true) →
      (s.since (s.run linux (step.shutdown :: step.shutdown :: cbs))).count (call.close fd) ≤
        s.owned.count fd) ∧
    ((∀ x ∈ cbs, x.is_teardown = true) → s.owned.Nodup →
      (s.since (s.run linux (step.shutdown :: step.shutdown :: cbs))).count (call.close fd) ≤ 1) ∧
    { sv.shutdown.shutdown with trace := sv.shutdown.trace } = sv.shutdown ∧
    (∀ c ∈ sv.shutdown.since sv.shutdown.shutdown, c.is_resume = false) ∧
    (sv.since sv.shutdown.shutdown.on_cancel).filter call.is_close =
      [call.close sv.m_handle] := by
  have hall : (∀ x ∈ cbs, x.is_teardown = true) →
      ∀ x ∈ step.shutdown :: step.shutdown :: cbs, x.is_teardown = true := by
    intro h x hx
    rcases List.mem_cons.mp hx with hx | hx
    · rw [hx]; rfl
    · rcases List.mem_cons.mp hx with hx | hx
      · rw [hx]; rfl
      · exact h x hx
  refine ⟨(stream_shutdown_twice s).1, (stream_shutdown_twice s).2, ?_, ?_,
    (server_shutdown_twice sv).1, (server_shutdown_twice sv).2.1, (server_shutdown_twice sv).2.2⟩
  · intro h
    have := teardown_run_closes linux fd _ s (hall h)
    omega
  · intro h hnd
    have := teardown_run_closes linux fd _ s (hall h)
    have hle : s.owned.count fd ≤ 1 := List.nodup_iff_count_le_one.mp hnd fd
    omega

/-- Witness of C11: two `shutdown` calls on the stream with a write in flight,
then the cancel callbacks; descriptor 3 of the writer is closed at most once. -/
theorem shutdown_idempotent_witness :
    (sample_in_flight.since (sample_in_flight.run false
      (step.shutdown :: step.shutdown ::
        [step.writer_cancel, step.reader_cancel, step.writer_cancel]))).count (call.close 3) ≤ 1 :=
  (shutdown_idempotent false sample_in_flight sample_server
    [step.writer_cancel, step.reader_cancel, step.writer_cancel] 3).2.2.2.1
    (by decide) (by decide)

/-! ### Shutdown through the public handles -/

/-- What `shutdown()` on a handle does to the implementation, for every state:
it is `stop()`. No source is cancelled or resumed; the server source is
suspended when it was armed, the stream only has `m_active` cleared. -/
theorem handle_shutdown_is_stop (sv : server) (st : stream) :
    detail.server.shutdown sv = sv.stop ∧
    (detail.server.shutdown sv).m_source.cancelled = sv.m_source.cancelled ∧
    (∀ c ∈ sv.since (detail.server.shutdown sv),
      c ≠ call.dispatch_source_cancel source_id.listener ∧ c.is_resume = false) ∧
    detail.stream.shutdown st = st.stop ∧
    (detail.stream.shutdown st).m_reader = st.m_reader ∧
    (detail.stream.shutdown st).m_writer = st.m_writer ∧
    (detail.stream.shutdown st).m_state = st.m_state ∧
    (detail.stream.shutdown st).trace = st.trace := by
  cases ha : sv.m_active <;> cases hb : st.m_active <;>
    simp [detail.server.shutdown, detail.stream.shutdown, server.stop, stream.stop, ha, hb,
      server.emit, server.since, dispatch_suspend, call.is_resume]

/-- C12, evaluated where it fails: `shutdown()` on the handle of a started
server suspends the listener source and cancels nothing, and on the handle of
a connected stream it makes no dispatch call at all and leaves the stream
`connected` with both sources uncancelled; only the destructors reach the
`shutdown` of the implementation, which cancels. -/
theorem handle_shutdown_only_stops :
    sample_server.start.m_source = { suspend_count := 0, cancelled := false } ∧
    (detail.server.shutdown sample_server.start).m_source =
      { suspend_count := 1, cancelled := false } ∧
    sample_server.start.since (detail.server.shutdown sample_server.start) =
      [call.dispatch_suspend source_id.listener] ∧
    (detail.server.dtor sample_server.start).m_source =
      { suspend_count := 0, cancelled := true } ∧
    detail.stream.shutdown sample_connected = { sample_connected with m_active := false } ∧
    (detail.stream.shutdown sample_connected).m_state = state.connected ∧
    (detail.stream.shutdown sample_connected).m_writer =
      some { m_handle := 3, m_source := { suspend_count := 1, cancelled := false } } ∧
    (detail.stream.dtor sample_connected).m_writer =
      some { m_handle := 3, m_source := { suspend_count := 0, cancelled := true } } := by
  decide

/-! ### Failed reads and writes -/

/-- A reader-ready event with pending size above zero never takes the
disconnect path, whatever `::read` returns: the state is kept, `disconnected`
is not delivered, and a live handler gets `on_read` with the value of `::read`
as the size. -/
theorem read_result_unchecked (s : stream) (r : rd_context) (size : Nat) (e : env)
    (hr : s.m_reader = some r) (hsz : 0 < size) :
    (s.on_rd_event size e).m_state = s.m_state ∧
    call.on_event event.disconnected ∉ s.since (s.on_rd_event size e) ∧
    (e.handler = true → call.on_read r.m_rd_data e.xfer ∈ s.since (s.on_rd_event size e)) := by
  have hz : size ≠ 0 := Nat.pos_iff_ne_zero.mp hsz
  cases hl : e.handler
  · simp [stream.on_rd_event, hr, hz, hl, stream.emit, stream.since]
  · cases ho : e.on_read with
    | throws => simp [stream.on_rd_event, hr, hz, hl, ho, stream.emit, stream.since]
    | returns b n =>
      by_cases hs : b = r.m_rd_data <;> cases hm : r.m_rd_is_mine <;>
        simp [stream.on_rd_event, hr, hz, hl, ho, hs, hm, stream.emit, stream.since]

/-- C13, evaluated where it fails: on the connected stream adopted from
descriptor 3 a reader-ready event reports 10 pending bytes and `::read` returns
-1, which becomes 2^64 - 1 in the `std::size_t size`. The stream stays
`connected`, no `disconnected` is delivered, and `on_read` is invoked with the
size 18446744073709551615. -/
theorem failed_read_reaches_on_read :
    sample_connected.m_state = state.connected ∧
    (sample_connected.on_rd_event 10 (sample_env (2 ^ 64 - 1))).m_state = state.connected ∧
    sample_connected.since (sample_connected.on_rd_event 10 (sample_env (2 ^ 64 - 1))) =
      [call.read 4 4096 16, call.on_read 4096 18446744073709551615] := by
  decide

/-- C20, evaluated where it fails: a 5 byte write is accepted on the adopted
stream. If the first `::write` returns -1 (2^64 - 1 in the `std::size_t res`),
the position becomes 2^64 - 1, above the size, and the slot is taken for
drained: the writer is suspended, busy is cleared and `on_write(7, 5)` is
delivered although nothing was written. If 2 bytes are out and the next
`::write` returns -1, the position drops from 2 to 1. -/
theorem failed_write_moves_position :
    ((sample_connected.write 7 5).1.step false
      (step.writer_ready 0 (sample_env (2 ^ 64 - 1)))).m_wr_pos = 18446744073709551615 ∧
    ((sample_connected.write 7 5).1.step false
      (step.writer_ready 0 (sample_env (2 ^ 64 - 1)))).m_wr_size = 5 ∧
    ((sample_connected.write 7 5).1.step false
      (step.writer_ready 0 (sample_env (2 ^ 64 - 1)))).m_wr_busy = false ∧
    (sample_connected.write 7 5).1.since ((sample_connected.write 7 5).1.step false
      (step.writer_ready 0 (sample_env (2 ^ 64 - 1)))) =
      [call.write 3 7 5, call.dispatch_suspend source_id.writer, call.on_write 7 5] ∧
    sample_in_flight.m_wr_pos = 2 ∧
    (sample_in_flight.step false
      (step.writer_ready 0 (sample_env (2 ^ 64 - 1)))).m_wr_pos = 1 := by
  decide

/-! ### Arming of the server source -/

/-- A `start` or `stop` call only appends to the trace. -/
theorem server_apply_extends (s : server) (op : server_op) :
    ∃ l, (s.apply op).trace = s.trace ++ l := by
  cases op <;> cases ha : s.m_active <;>
    simp [server.apply, server.start, server.stop, ha, server.emit]

/-- The trace after a sequence of `start` and `stop` calls is the old trace
followed by the calls made since. -/
theorem server_trace_eq_since (s : server) (ops : List server_op) :
    (s.run ops).trace = s.trace ++ s.since (s.run ops) := by
  have hext : ∀ (ops : List server_op) (u : server), ∃ l, (u.run ops).trace = u.trace ++ l := by
    intro ops
    induction ops with
    | nil => intro u; exact ⟨[], by simp [server.run]⟩
    | cons op ops ih =>
      intro u
      obtain ⟨k, hk⟩ := server_apply_extends u op
      obtain ⟨m, hm⟩ := ih (u.apply op)
      refine ⟨k ++ m, ?_⟩
      have hrun : u.run (op :: ops) = (u.apply op).run ops := by simp [server.run]
      rw [hrun, hm, hk, List.append_assoc]
  obtain ⟨l, hl⟩ := hext ops s
  simp [server.since, hl]

/-- `start` and `stop` keep `m_active` in step with the source, and the calls
they make continue the alternation of resume and suspend. -/
theorem server_run_arming (ops : List server_op) :
    ∀ s : server, s.armed_ok = true →
      (s.run ops).armed_ok = true ∧ alternates s.m_active (s.since (s.run ops)) = true := by
  induction ops with
  | nil => intro s h; exact ⟨h, by simp [server.run, server.since, alternates]⟩
  | cons op ops ih =>
    intro s h
    have hrun : s.run (op :: ops) = (s.apply op).run ops := by simp [server.run]
    rw [hrun]
    cases op with
    | start =>
      cases ha : s.m_active
      · have hok : (s.apply server_op.start).armed_ok = true := by
          simp [server.armed_ok, ha] at h
          simp [server.apply, server.start, ha, server.armed_ok, server.emit, dispatch_resume, h]
        obtain ⟨h1, h2⟩ := ih _ hok
        refine ⟨h1, ?_⟩
        obtain ⟨l, hl⟩ : ∃ l, ((s.apply server_op.start).run ops).trace =
            (s.apply server_op.start).trace ++ l :=
          ⟨(s.apply server_op.start).since ((s.apply server_op.start).run ops),
            server_trace_eq_since _ ops⟩
        have hs1 : (s.apply server_op.start).since ((s.apply server_op.start).run ops) = l := by
          simp [server.since, hl]
        have hs2 : s.since ((s.apply server_op.start).run ops) =
            call.dispatch_resume source_id.listener :: l := by
          rw [server.since, hl]
          simp [server.apply, server.start, ha, server.emit]
        rw [hs1] at h2
        rw [hs2]
        simpa [alternates, server.apply, server.start, ha, server.emit] using h2
      · have hsame : s.apply server_op.start = s := by
          simp [server.apply, server.start, ha]
        rw [hsame]
        have := ih s h
        rwa [ha] at this
    | stop =>
      cases ha : s.m_active
      · have hsame : s.apply server_op.stop = s := by
          simp [server.apply, server.stop, ha]
        rw [hsame]
        have := ih s h
        rwa [ha] at this
      · have hok : (s.apply server_op.stop).armed_ok = true := by
          simp [server.armed_ok, ha] at h
          simp [server.apply, server.stop, ha, server.armed_ok, server.emit, dispatch_suspend, h]
        obtain ⟨h1, h2⟩ := ih _ hok
        refine ⟨h1, ?_⟩
        obtain ⟨l, hl⟩ : ∃ l, ((s.apply server_op.stop).run ops).trace =
            (s.apply server_op.stop).trace ++ l :=
          ⟨(s.apply server_op.stop).since ((s.apply server_op.stop).run ops),
            server_trace_eq_since _ ops⟩
        have hs1 : (s.apply server_op.stop).since ((s.apply server_op.stop).run ops) = l := by
          simp [server.since, hl]
        have hs2 : s.since ((s.apply server_op.stop).run ops) =
            call.dispatch_suspend source_id.listener :: l := by
          rw [server.since, hl]
          simp [server.apply, server.stop, ha, server.emit]
        rw [hs1] at h2
        rw [hs2]
        simpa [alternates, server.apply, server.stop, ha, server.emit] using h2

/-- C19: after every sequence of `start` and `stop` calls on a freshly
constructed server, `m_active` is set exactly when the source is resumed, and
the dispatch calls made are resume and suspend in strict alternation beginning
with a resume. `stop` before any `start`, a repeated `start`, a repeated `stop`
and `start` after `shutdown` return the object as it was, trace included. -/
theorem server_arming (h : Int) (ops : List server_op) :
    (((server.ctor h).run ops).m_active = true ↔
      ((server.ctor h).run ops).m_source.resumed = true) ∧
    alternates false ((server.ctor h).since ((server.ctor h).run ops)) = true ∧
    (server.ctor h).stop = server.ctor h ∧
    ((server.ctor h).run ops).start.start = ((server.ctor h).run ops).start ∧
    ((server.ctor h).run ops).stop.stop = ((server.ctor h).run ops).stop ∧
    ((server.ctor h).run ops).shutdown.start = ((server.ctor h).run ops).shutdown := by
  obtain ⟨h1, h2⟩ := server_run_arming ops (server.ctor h) rfl
  refine ⟨?_, h2, rfl, ?_, ?_, ?_⟩
  · cases ha : ((server.ctor h).run ops).m_active <;>
      simp [server.armed_ok, ha] at h1 <;>
      simp [dispatch_source.resumed, h1]
  · cases ha : ((server.ctor h).run ops).m_active <;>
      simp [server.start, ha, server.emit]
  · cases ha : ((server.ctor h).run ops).m_active <;>
      simp [server.stop, ha, server.emit]
  · cases ha : ((server.ctor h).run ops).m_active <;>
      simp [server.shutdown, server.start, ha, server.emit]

/-! ### Resume before cancel -/

/-- Where the cancel paths leave a resumed source: `shutdown` and the disconnect
transition on a connected stream (idle or with a write in flight) and `shutdown`
after a failed connect leave the writer source cancelled with suspension count
0, and `shutdown` of a server after any sequence of `start` and `stop` calls
leaves the listener source cancelled with suspension count 0. -/
theorem cancel_paths_balanced (s : stream) (w : context) (e : env) (h : Int)
    (ops : List server_op)
    (hw : s.m_writer = some w) (hc : w.m_source.cancelled = false)
    (hbal : s.writer_balanced = true)
    (hst : s.m_state = state.connected ∨ s.m_state = state.disconnected) :
    s.shutdown.m_writer = some { w with m_source := { suspend_count := 0, cancelled := true } } ∧
    (s.process_disconnect_event e).m_writer =
      some { w with m_source := { suspend_count := 0, cancelled := true } } ∧
    ((server.ctor h).run ops).shutdown.m_source = { suspend_count := 0, cancelled := true } := by
  obtain ⟨h1, _⟩ := server_run_arming ops (server.ctor h) rfl
  refine ⟨?_, ?_, ?_⟩
  · rcases hst with hst | hst <;> cases hb : s.m_wr_busy <;> cases hr : s.m_reader <;>
      cases ha : s.m_active <;>
      simp [stream.writer_balanced, hw, hc, hst, hb] at hbal <;>
      simp [stream.shutdown, stream.cancel_write_source, stream.cancel_read_source,
        stream.start, hw, hb, hr, ha, stream.emit, dispatch_source_cancel, dispatch_resume,
        hbal]
  · rcases hst with hst | hst <;> cases hb : s.m_wr_busy <;> cases hr : s.m_reader <;>
      cases ha : s.m_active <;> cases hl : e.handler <;>
      simp [stream.writer_balanced, hw, hc, hst, hb] at hbal <;>
      simp [stream.process_disconnect_event, stream.cancel_write_source,
        stream.cancel_read_source, stream.start, hw, hb, hr, ha, hl, stream.emit,
        dispatch_source_cancel, dispatch_resume, hbal]
  · cases ha : ((server.ctor h).run ops).m_active <;>
      simp [server.armed_ok, ha] at h1 <;>
      simp [server.shutdown, server.start, ha, server.emit, dispatch_source_cancel,
        dispatch_resume, h1]

/-- C17, evaluated where it fails: the stream is `connecting`, its writer source
armed for the connect event (suspension count 0) and `m_wr_busy` false.
`shutdown` cancels the writer source and then, because the compare-exchange on
`m_wr_busy` succeeds, resumes it although it is resumed already: the suspension
count ends at -1. -/
theorem shutdown_over_resumes :
    sample_connecting.m_state = state.connecting ∧
    sample_connecting.m_wr_busy = false ∧
    sample_connecting.m_writer =
      some { m_handle := 3, m_source := { suspend_count := 0, cancelled := false } } ∧
    sample_connecting.shutdown.m_writer =
      some { m_handle := 3, m_source := { suspend_count := -1, cancelled := true } } ∧
    sample_connecting.since sample_connecting.shutdown =
      [call.dispatch_source_cancel source_id.writer, call.dispatch_resume source_id.writer] := by
  decide

/-! ### When the writer source is suspended -/

/-- Either form of `initialize`, when it returns normally, leaves the writer
source in step with state and busy flag. -/
theorem init_writer_balanced (osx linux : Bool) (h : Int) (buf bufsz : Nat) (ok : Bool)
    (e : env) (ce : connect_env) :
    ((stream.ctor.init_handle osx h buf bufsz ok e).2 = none →
      (stream.ctor.init_handle osx h buf bufsz ok e).1.writer_balanced = true) ∧
    ((stream.ctor.init_connect linux buf bufsz ce).2 = none →
      (stream.ctor.init_connect linux buf bufsz ce).1.writer_balanced = true) := by
  constructor
  · cases osx <;> cases ok <;> cases hx : e.executor <;>
      by_cases hd : e.dup = invalid_handle <;> by_cases hh : h = invalid_handle <;>
      by_cases hb : buf = nullptr <;>
      simp [stream.init_handle, stream.create_write_source, stream.create_read_source,
        stream.ctor, stream.emit, hx, hd, hh, hb, stream.writer_balanced,
        dispatch_source_create]
  · cases linux <;> cases hio : ce.ioctl_ok <;> cases hcx : ce.executor <;>
      cases hcc : ce.connect <;> by_cases hs : ce.socket = invalid_handle <;>
      simp [stream.init_connect, stream.connect, stream.connect_catch,
        stream.create_write_source, stream.ctor, stream.emit, hio, hcx, hcc, hs,
        stream.writer_balanced, dispatch_source_create, dispatch_resume]

/-- A step whose callback returns normally keeps the writer source in step with
state and busy flag. -/
theorem step_writer_balanced (linux : Bool) (s : stream) (x : step)
    (hx : x.returns_normally = true) (h : s.writer_balanced = true) :
    (s.step linux x).writer_balanced = true := by
  revert h
  cases x with
  | write d n =>
    cases hw : s.m_writer with
    | none =>
      by_cases hst : s.m_state = state.connected <;> cases hb : s.m_wr_busy <;>
        simp [stream.step, stream.write, hst, hb, hw, stream.emit, stream.writer_balanced]
    | some w =>
      cases hc : w.m_source.cancelled <;> cases hst : s.m_state <;> cases hb : s.m_wr_busy <;>
        simp [stream.step, stream.write, hst, hb, hw, hc, stream.emit, stream.writer_balanced,
          dispatch_resume]
      intro h0
      simp [h0]
  | writer_ready size e =>
    cases hw : s.m_writer with
    | none => simp [stream.step, stream.writer_delivers, hw]
    | some w =>
      cases hd : w.m_source.delivers
      · simp [stream.step, stream.writer_delivers, hw, hd]
      · have hc : w.m_source.cancelled = false := by
          simp [dispatch_source.delivers] at hd; exact hd.1
        have h0 : w.m_source.suspend_count = 0 := by
          simp [dispatch_source.delivers, dispatch_source.resumed] at hd; exact hd.2
        have hex : e.executor = true := by
          simp [step.returns_normally] at hx; exact hx.1
        have hdup : e.dup ≠ invalid_handle := by
          simp [step.returns_normally] at hx; exact hx.2
        cases hst : s.m_state
        · simp [stream.step, stream.writer_delivers, hw, hd, stream.on_wr_event, hst]
        · cases hf : connect_failed_pred linux size <;> cases hl : e.handler <;>
            by_cases hbuf : s.m_buf = nullptr <;> cases hb : s.m_wr_busy <;>
            simp [stream.step, stream.writer_delivers, hw, hd, stream.on_wr_event, hst,
              stream.process_connect_event, hf, hl, hex, hdup, hbuf, hb,
              stream.create_read_source, stream.emit, stream.writer_balanced,
              dispatch_suspend, hc, h0]
        · cases hf : connect_failed_pred linux size <;> cases hl : e.handler <;>
            by_cases hbuf : s.m_buf = nullptr <;> cases hb : s.m_wr_busy <;>
            simp [stream.step, stream.writer_delivers, hw, hd, stream.on_wr_event, hst,
              stream.process_connect_event, hf, hl, hex, hdup, hbuf, hb,
              stream.create_read_source, stream.emit, stream.writer_balanced,
              dispatch_suspend, hc, h0]
        · by_cases hp : s.m_wr_size ≤ (s.m_wr_pos + e.xfer) % SIZE_MOD <;>
            cases hl : e.handler <;> cases hb : s.m_wr_busy <;>
            simp [stream.step, stream.writer_delivers, hw, hd, stream.on_wr_event, hst,
              stream.process_write_event, hp, hl, hb, stream.emit, stream.writer_balanced,
              dispatch_suspend, hc, h0]
  | reader_ready size e =>
    cases hr : s.m_reader with
    | none => simp [stream.step, stream.reader_delivers, hr]
    | some r =>
      cases hd : r.m_source.delivers
      · simp [stream.step, stream.reader_delivers, hr, hd]
      · by_cases hz : size = 0
        · cases hw : s.m_writer <;> cases hb : s.m_wr_busy <;> cases hl : e.handler <;>
            cases ha : s.m_active <;>
            simp [stream.step, stream.reader_delivers, hr, hd, stream.on_rd_event, hz,
              stream.process_disconnect_event, stream.cancel_write_source,
              stream.cancel_read_source, stream.start, hw, hb, hl, ha, stream.emit,
              stream.writer_balanced, dispatch_source_cancel, dispatch_resume]
        · cases hl : e.handler
          · simp [stream.step, stream.reader_delivers, hr, hd, stream.on_rd_event, hz, hl,
              stream.emit, stream.writer_balanced]
          · cases ho : e.on_read with
            | throws =>
              simp [stream.step, stream.reader_delivers, hr, hd, stream.on_rd_event, hz, hl,
                ho, stream.emit, stream.writer_balanced]
            | returns b n =>
              by_cases hs : b = r.m_rd_data <;> cases hm : r.m_rd_is_mine <;>
                simp [stream.step, stream.reader_delivers, hr, hd, stream.on_rd_event, hz, hl,
                  ho, hs, hm, stream.emit, stream.writer_balanced]
  | shutdown =>
    cases hw : s.m_writer <;> cases hb : s.m_wr_busy <;> cases hr : s.m_reader <;>
      cases ha : s.m_active <;>
      simp [stream.step, stream.shutdown, stream.cancel_write_source,
        stream.cancel_read_source, stream.start, hw, hb, hr, ha, stream.emit,
        stream.writer_balanced, dispatch_source_cancel, dispatch_resume]
  | writer_cancel =>
    cases hw : s.m_writer with
    | none => simp [stream.step, hw]
    | some w =>
      cases hd : w.m_source.delivers_cancel
      · simp [stream.step, hw, hd]
      · simp [stream.step, hw, hd, stream.on_wr_cancel, stream.emit, stream.writer_balanced]
  | reader_cancel =>
    cases hr : s.m_reader with
    | none => simp [stream.step, hr]
    | some r =>
      cases hd : r.m_source.delivers_cancel <;> cases hm : r.m_rd_is_mine <;>
        simp [stream.step, hd, hr, hm, stream.on_rd_cancel, stream.emit,
          stream.writer_balanced]

/-- A run whose callbacks return normally keeps the writer source in step with
state and busy flag. -/
theorem run_writer_balanced (linux : Bool) (steps : List step) :
    ∀ s : stream, (∀ x ∈ steps, x.returns_normally = true) → s.writer_balanced = true →
      (s.run linux steps).writer_balanced = true := by
  induction steps with
  | nil => intro s _ h; exact h
  | cons x xs ih =>
    intro s hxs h
    have hrun : s.run linux (x :: xs) = (s.step linux x).run linux xs := by
      simp [stream.run]
    rw [hrun]
    exact ih _ (fun y hy => hxs y (List.mem_cons_of_mem _ hy))
      (step_writer_balanced linux s x (hxs x (by simp)) h)

/-- What `writer_balanced` says about a writer source that is not cancelled. -/
theorem suspended_iff_of_balanced (s : stream) (w : context) (hw : s.m_writer = some w)
    (hc : w.m_source.cancelled = false) (h : s.writer_balanced = true) :
    (w.m_source.is_suspended = true ↔
      (s.m_wr_busy = false ∧
        (s.m_state = state.connected ∨ s.m_state = state.disconnected))) ∧
    (w.m_source.suspend_count = 0 ∨ w.m_source.suspend_count = 1) := by
  cases hst : s.m_state <;> cases hb : s.m_wr_busy <;>
    simp [stream.writer_balanced, hw, hc, hst, hb] at h <;>
    simp [dispatch_source.is_suspended, h]

/-- C16 as the code has it: in every state a stream reaches from either form of
`initialize` by `write` calls, writer-ready events and reader-ready events whose
callbacks return normally, a writer source that exists and is not cancelled is
suspended if and only if busy is false and the state is `connected` or
`disconnected` (the latter after a failed connect); its suspension count is
then 1, and 0 otherwise. -/
theorem writer_suspended_iff (linux : Bool) (s0 : stream) (steps : List step) (w : context)
    (hinit : (∃ osx h buf bufsz ok e, stream.ctor.init_handle osx h buf bufsz ok e = (s0, none)) ∨
      (∃ buf bufsz ce, stream.ctor.init_connect linux buf bufsz ce = (s0, none)))
    (hsteps : ∀ x ∈ steps, x.is_traffic = true ∧ x.returns_normally = true)
    (hw : (s0.run linux steps).m_writer = some w)
    (hc : w.m_source.cancelled = false) :
    (w.m_source.is_suspended = true ↔
      ((s0.run linux steps).m_wr_busy = false ∧
        ((s0.run linux steps).m_state = state.connected ∨
          (s0.run linux steps).m_state = state.disconnected))) ∧
    (w.m_source.suspend_count = 0 ∨ w.m_source.suspend_count = 1) := by
  have h0 : s0.writer_balanced = true := by
    rcases hinit with ⟨osx, h, buf, bufsz, ok, e, heq⟩ | ⟨buf, bufsz, ce, heq⟩
    · have := (init_writer_balanced osx linux h buf bufsz ok e
        { socket := 0, ioctl_ok := true, executor := true,
          connect := connect_result.completed }).1
      rw [heq] at this
      exact this rfl
    · have := (init_writer_balanced false linux 0 buf bufsz true (sample_env 0) ce).2
      rw [heq] at this
      exact this rfl
  exact suspended_iff_of_balanced _ w hw hc
    (run_writer_balanced linux steps s0 (fun x hx => (hsteps x hx).2) h0)

/-- Witness of the amended C16: after the failed connect the writer source of
the stream is suspended, with busy false and the state `disconnected`. -/
theorem writer_suspended_iff_witness :
    (({ m_handle := 3, m_source := { suspend_count := 1, cancelled := false } } :
        context).m_source.is_suspended = true ↔
      ((sample_connecting.run false [step.writer_ready 0 (sample_env 0)]).m_wr_busy = false ∧
        ((sample_connecting.run false [step.writer_ready 0 (sample_env 0)]).m_state =
            state.connected ∨
          (sample_connecting.run false [step.writer_ready 0 (sample_env 0)]).m_state =
            state.disconnected))) :=
  (writer_suspended_iff false sample_connecting [step.writer_ready 0 (sample_env 0)]
    { m_handle := 3, m_source := { suspend_count := 1, cancelled := false } }
    (Or.inr ⟨nullptr, 16,
      { socket := 3, ioctl_ok := true, executor := true, connect := connect_result.in_progress },
      rfl⟩)
    (by decide) rfl rfl).1

/-- C16 as stated fails: after a writer-ready event that reports the connect as
failed, the stream made by the connect form of `initialize` is `disconnected`
with its writer source present, not cancelled and suspended, so the source is
suspended although the state is not `connected`. -/
theorem writer_suspended_counterexample :
    sample_connect_failed.m_writer =
      some { m_handle := 3, m_source := { suspend_count := 1, cancelled := false } } ∧
    ({ suspend_count := 1, cancelled := false } : dispatch_source).is_suspended = true ∧
    sample_connect_failed.m_state = state.disconnected ∧
    ¬ (({ suspend_count := 1, cancelled := false } : dispatch_source).is_suspended = true ↔
      (sample_connect_failed.m_wr_busy = false ∧
        sample_connect_failed.m_state = state.connected)) := by
  decide

/-! ### A write in flight at disconnect -/

/-- A step of a quiet stream whose busy flag is set makes no `::write` call and
leaves the busy flag and the slot as they are. -/
theorem quiet_busy_step (linux : Bool) (s : stream) (x : step) (hq : s.quiet = true)
    (hb : s.m_wr_busy = true) :
    (∀ c ∈ s.since (s.step linux x), c.is_write = false) ∧
    (s.step linux x).m_wr_busy = true ∧
    (s.step linux x).m_wr_data = s.m_wr_data ∧
    (s.step linux x).m_wr_size = s.m_wr_size ∧
    (s.step linux x).m_wr_pos = s.m_wr_pos := by
  have hst : s.m_state = state.disconnected := by
    simp [stream.quiet] at hq; exact hq.1.1
  cases x with
  | write d n => simp [stream.step, stream.write, hst, stream.since, hb]
  | writer_ready size e =>
    cases hw : s.m_writer with
    | none => simp [stream.step, stream.writer_delivers, hw, stream.since, hb]
    | some w =>
      have hc : w.m_source.cancelled = true := by
        simp [stream.quiet, hw] at hq; exact hq.2
      simp [stream.step, stream.writer_delivers, hw, dispatch_source.delivers, hc,
        stream.since, hb]
  | reader_ready size e =>
    cases hr : s.m_reader with
    | none => simp [stream.step, stream.reader_delivers, hr, stream.since, hb]
    | some r =>
      have hc : r.m_source.cancelled = true := by
        simp [stream.quiet, hr] at hq; exact hq.1.2
      simp [stream.step, stream.reader_delivers, hr, dispatch_source.delivers, hc,
        stream.since, hb]
  | shutdown =>
    cases hw : s.m_writer <;> cases hr : s.m_reader <;> cases ha : s.m_active <;>
      simp [stream.step, stream.shutdown, stream.cancel_write_source,
        stream.cancel_read_source, stream.start, hw, hb, hr, ha, stream.emit, stream.since,
        call.is_write]
  | writer_cancel =>
    cases hw : s.m_writer with
    | none => simp [stream.step, hw, stream.since, hb]
    | some w =>
      cases hd : w.m_source.delivers_cancel <;>
        simp [stream.step, hw, hd, stream.on_wr_cancel, stream.emit, stream.since,
          call.is_write, hb]
  | reader_cancel =>
    cases hr : s.m_reader with
    | none => simp [stream.step, hr, stream.since, hb]
    | some r =>
      cases hd : r.m_source.delivers_cancel <;> cases hm : r.m_rd_is_mine <;>
        simp [stream.step, hd, hr, hm, stream.on_rd_cancel, stream.emit, stream.since,
          call.is_write, hb]

/-- In every run of a quiet stream whose busy flag is set no callback and no
`::write` call is made, and busy flag and slot stay as they are. -/
theorem quiet_busy_run (linux : Bool) (steps : List step) :
    ∀ s : stream, s.quiet = true → s.m_wr_busy = true →
      (∀ c ∈ s.since (s.run linux steps), c.is_callback = false ∧ c.is_write = false) ∧
      (s.run linux steps).m_wr_busy = true ∧
      (s.run linux steps).m_wr_data = s.m_wr_data ∧
      (s.run linux steps).m_wr_size = s.m_wr_size ∧
      (s.run linux steps).m_wr_pos = s.m_wr_pos := by
  induction steps with
  | nil => intro s _ hb; simp [stream.run, stream.since, hb]
  | cons x xs ih =>
    intro s hq hb
    have hrun : s.run linux (x :: xs) = (s.step linux x).run linux xs := by
      simp [stream.run]
    have hsince : s.since ((s.step linux x).run linux xs) =
        s.since (s.step linux x) ++ (s.step linux x).since ((s.step linux x).run linux xs) :=
      since_trans s _ _ (step_extends linux s x) (run_extends linux xs _)
    obtain ⟨q1, q2⟩ := quiet_step linux s x hq
    obtain ⟨b1, b2, b3, b4, b5⟩ := quiet_busy_step linux s x hq hb
    obtain ⟨i1, i2, i3, i4, i5⟩ := ih (s.step linux x) q2 b2
    rw [hrun, hsince]
    refine ⟨?_, i2, by rw [i3, b3], by rw [i4, b4], by rw [i5, b5]⟩
    intro c hc
    rcases List.mem_append.mp hc with hc | hc
    · exact ⟨q1 c hc, b1 c hc⟩
    · exact i1 c hc

/-- C18 as the code has it: on a connected stream with a write in flight (busy
set) a reader-ready event with pending size 0 cancels the writer source, makes
no `on_write` and no `::write` call, and leaves the busy flag set and the slot
`(data, size, pos)` untouched; in every run that follows no callback and no
`::write` call is made and busy flag and slot stay the same, so the slot is
dropped without `on_write`. -/
theorem disconnect_in_flight (linux : Bool) (s : stream) (r : rd_context) (w : context)
    (e : env) (steps : List step)
    (hst : s.m_state = state.connected) (hb : s.m_wr_busy = true)
    (hpos : s.m_wr_pos < s.m_wr_size)
    (hr : s.m_reader = some r) (hw : s.m_writer = some w) :
    (s.on_rd_event 0 e).m_writer =
      some { w with m_source := dispatch_source_cancel w.m_source } ∧
    (s.on_rd_event 0 e).m_wr_busy = true ∧
    (s.on_rd_event 0 e).m_wr_data = s.m_wr_data ∧
    (s.on_rd_event 0 e).m_wr_size = s.m_wr_size ∧
    (s.on_rd_event 0 e).m_wr_pos = s.m_wr_pos ∧
    (∀ c ∈ s.since (s.on_rd_event 0 e), c.is_on_write = false ∧ c.is_write = false) ∧
    (∀ c ∈ (s.on_rd_event 0 e).since ((s.on_rd_event 0 e).run linux steps),
      c.is_callback = false ∧ c.is_write = false) ∧
    ((s.on_rd_event 0 e).run linux steps).m_wr_busy = true ∧
    ((s.on_rd_event 0 e).run linux steps).m_wr_pos = s.m_wr_pos := by
  have _ := hst
  have _ := hpos
  have hq : (s.on_rd_event 0 e).quiet = true := by
    cases hl : e.handler <;> cases ha : s.m_active <;>
      simp [stream.on_rd_event, hr, stream.process_disconnect_event,
        stream.cancel_write_source, stream.cancel_read_source, stream.start, hw, hb, hl, ha,
        stream.emit, stream.quiet, dispatch_source_cancel]
  have hfields : (s.on_rd_event 0 e).m_writer =
        some { w with m_source := dispatch_source_cancel w.m_source } ∧
      (s.on_rd_event 0 e).m_wr_busy = true ∧
      (s.on_rd_event 0 e).m_wr_data = s.m_wr_data ∧
      (s.on_rd_event 0 e).m_wr_size = s.m_wr_size ∧
      (s.on_rd_event 0 e).m_wr_pos = s.m_wr_pos ∧
      (∀ c ∈ s.since (s.on_rd_event 0 e), c.is_on_write = false ∧ c.is_write = false) := by
    cases hl : e.handler <;> cases ha : s.m_active <;>
      simp [stream.on_rd_event, hr, stream.process_disconnect_event,
        stream.cancel_write_source, stream.cancel_read_source, stream.start, hw, hb, hl, ha,
        stream.emit, stream.since, call.is_on_write, call.is_write]
  obtain ⟨f1, f2, f3, f4, f5, f6⟩ := hfields
  obtain ⟨g1, g2, _, _, g5⟩ := quiet_busy_run linux steps _ hq f2
  exact ⟨f1, f2, f3, f4, f5, f6, g1, g2, by rw [g5, f5]⟩

/-- Witness of the amended C18: the peer closes while 3 of 5 bytes are still to
go; busy stays set, and writer-ready events, a `write` and a `shutdown` after
that bring no callback and no `::write`. -/
theorem disconnect_in_flight_witness :
    (sample_in_flight.on_rd_event 0 (sample_env 0)).m_wr_busy = true ∧
    (∀ c ∈ (sample_in_flight.on_rd_event 0 (sample_env 0)).since
        ((sample_in_flight.on_rd_event 0 (sample_env 0)).run false
          [step.writer_ready 0 (sample_env 3), step.write 9 1, step.shutdown,
            step.writer_cancel]),
      c.is_callback = false ∧ c.is_write = false) :=
  ⟨(disconnect_in_flight false sample_in_flight
      { m_handle := 4, m_source := { suspend_count := 0, cancelled := false },
        m_rd_data := 4096, m_rd_size := 16, m_rd_is_mine := true }
      { m_handle := 3, m_source := { suspend_count := 0, cancelled := false } }
      (sample_env 0)
      [step.writer_ready 0 (sample_env 3), step.write 9 1, step.shutdown, step.writer_cancel]
      rfl rfl (by decide) rfl rfl).2.1,
   (disconnect_in_flight false sample_in_flight
      { m_handle := 4, m_source := { suspend_count := 0, cancelled := false },
        m_rd_data := 4096, m_rd_size := 16, m_rd_is_mine := true }
      { m_handle := 3, m_source := { suspend_count := 0, cancelled := false } }
      (sample_env 0)
      [step.writer_ready 0 (sample_env 3), step.write 9 1, step.shutdown, step.writer_cancel]
      rfl rfl (by decide) rfl rfl).2.2.2.2.2.2.1⟩

/-- C18 as stated fails: the adopted stream is connected with a 5 byte write in
flight at position 2; after the reader-ready event with pending size 0 the
writer source is cancelled but `m_wr_busy` is still true, not cleared. -/
theorem disconnect_keeps_busy :
    sample_in_flight.m_state = state.connected ∧
    sample_in_flight.m_wr_busy = true ∧
    sample_in_flight.m_wr_pos = 2 ∧
    sample_in_flight.m_wr_size = 5 ∧
    (sample_in_flight.on_rd_event 0 (sample_env 0)).m_state = state.disconnected ∧
    (sample_in_flight.on_rd_event 0 (sample_env 0)).m_writer =
      some { m_handle := 3, m_source := { suspend_count := 0, cancelled := true } } ∧
    ¬ (sample_in_flight.on_rd_event 0 (sample_env 0)).m_wr_busy = false := by
  decide

/-! ### Loop task -/

set_option maxRecDepth 100000

/-- The loop task scenarios of `tests/unit/task/loop_task.cpp` on the model:
the counters of `runner_1` and `runner_2` and the value handed to the
continuation are the ones the tests check. -/
theorem loop_test_scenarios :
    (test_void_false.run 1 (0, 0) ()).map (fun r => r.world) = some (1, 0) ∧
    (test_void_count.run 100 (0, 0) ()).map (fun r => r.world) = some (100, 99) ∧
    (test_int_false.run 1 (0, 0) 0).map (fun r => (r.world, r.state)) = some ((1, 0), 0) ∧
    (test_int_count.run 101 (0, 0) 0).map (fun r => (r.world, r.state)) =
      some ((101, 100), 100) ∧
    (test_no_body_false.run 1 (0, 0) ()).map (fun r => r.world) = some (1, 0) ∧
    (test_no_body_count.run 100 (0, 0) ()).map (fun r => r.world) = some (100, 0) ∧
    (test_void_count.run 100 (0, 0) ()).map
        (fun r => (r.log.countP loop_call.is_predicate, r.log.countP loop_call.is_body,
          r.log.countP loop_call.is_continuation, loop_alternates r.log)) =
      some (100, 99, 1, true) := by
  decide

/-- Counts and shape of the calls of a loop with body. -/
theorem loop_log_shape {S : Type} (f : S → S) (n : Nat) :
    ∀ s : S, (loop_log f n s).countP loop_call.is_predicate = n + 1 ∧
      (loop_log f n s).countP loop_call.is_body = n ∧
      (loop_log f n s).countP loop_call.is_continuation = 1 ∧
      loop_alternates (loop_log f n s) = true ∧
      (loop_log f n s).getLast? = some (loop_call.continuation (f^[n] s)) := by
  induction n with
  | zero =>
    intro s
    simp [loop_log, loop_call.is_predicate, loop_call.is_body, loop_call.is_continuation,
      loop_alternates, List.countP_cons]
  | succ n ih =>
    intro s
    obtain ⟨h1, h2, h3, h4, h5⟩ := ih (f s)
    refine ⟨?_, ?_, ?_, ?_, ?_⟩
    · simp [loop_log, List.countP_cons, loop_call.is_predicate, h1]
    · simp [loop_log, List.countP_cons, loop_call.is_body, h2]
    · simp [loop_log, List.countP_cons, loop_call.is_continuation, h3]
    · simp [loop_log, loop_alternates, h4]
    · have hne : loop_log f n (f s) ≠ [] := by
        cases n <;> simp [loop_log]
      obtain ⟨c, l, hl⟩ := List.exists_cons_of_ne_nil hne
      simp only [loop_log, Function.iterate_succ_apply]
      rw [hl] at h5 ⊢
      simpa [List.getLast?_cons_cons] using h5

/-- A loop over a predicate and a body that depend on the state only finishes
once the fuel exceeds the number of rounds, with the state the body has built. -/
theorem of_functions_run {W S : Type} (p : S → Bool) (f : S → S) (n : Nat) :
    ∀ (s0 : S) (w : W) (fuel : Nat), (∀ i < n, p (f^[i] s0) = true) → p (f^[n] s0) = false →
      n < fuel →
      (loop_task.of_functions p f).run fuel w s0 =
        some { state := f^[n] s0, world := w, log := loop_log f n s0 } := by
  induction n with
  | zero =>
    intro s0 w fuel _ hfalse hfuel
    obtain ⟨k, rfl⟩ : ∃ k, fuel = k + 1 := ⟨fuel - 1, by omega⟩
    have hp : p s0 = false := by simpa using hfalse
    simp [loop_task.run, loop_task.of_functions, hp, loop_log]
  | succ n ih =>
    intro s0 w fuel htrue hfalse hfuel
    obtain ⟨k, rfl⟩ : ∃ k, fuel = k + 1 := ⟨fuel - 1, by omega⟩
    have hp : p s0 = true := by simpa using htrue 0 (Nat.succ_pos n)
    have hrec := ih (f s0) w k
      (fun i hi => by
        have := htrue (i + 1) (Nat.succ_lt_succ hi)
        simpa [Function.iterate_succ_apply] using this)
      (by simpa [Function.iterate_succ_apply] using hfalse)
      (by omega)
    simp [loop_task.of_functions] at hrec
    simp [loop_task.run, loop_task.of_functions, hp, hrec, loop_log, Function.iterate_succ_apply]

/-- C14: let the predicate `p` and the body `f` of a loop task depend on the
state only, and let `n` be the least number with `p (f^[n] s0)` false. Run
with more fuel than `n`, the loop finishes and hands `f^[n] s0` to the
continuation, once and as its last call; the predicate has been invoked `n + 1`
times and the body `n` times, in strict alternation beginning with the
predicate. -/
theorem loop_with_body {W S : Type} (p : S → Bool) (f : S → S) (s0 : S) (w : W)
    (n fuel : Nat) (htrue : ∀ i < n, p (f^[i] s0) = true) (hfalse : p (f^[n] s0) = false)
    (hfuel : n < fuel) :
    ∃ out, (loop_task.of_functions p f).run fuel w s0 = some out ∧
      out.state = f^[n] s0 ∧
      out.log.countP loop_call.is_predicate = n + 1 ∧
      out.log.countP loop_call.is_body = n ∧
      out.log.countP loop_call.is_continuation = 1 ∧
      loop_alternates out.log = true ∧
      out.log.getLast? = some (loop_call.continuation (f^[n] s0)) := by
  obtain ⟨h1, h2, h3, h4, h5⟩ := loop_log_shape f n s0
  exact ⟨_, of_functions_run p f n s0 w fuel htrue hfalse hfuel, rfl, h1, h2, h3, h4, h5⟩

/-- Witness of C14: predicate `input < 100`, body `input + 1`, initial state 0;
the loop hands 100 to the continuation after 101 predicate and 100 body calls. -/
theorem loop_with_body_witness :
    ∃ out : loop_result Unit Nat,
      (loop_task.of_functions (fun s => decide (s < 100)) (fun s => s + 1)).run 101 () 0 =
        some out ∧
      out.state = (fun s => s + 1)^[100] 0 ∧
      out.log.countP loop_call.is_predicate = 100 + 1 ∧
      out.log.countP loop_call.is_body = 100 ∧
      out.log.countP loop_call.is_continuation = 1 ∧
      loop_alternates out.log = true ∧
      out.log.getLast? = some (loop_call.continuation ((fun s => s + 1)^[100] 0)) :=
  loop_with_body (fun s => decide (s < 100)) (fun s => s + 1) 0 () 100 101
    (by decide) (by decide) (by decide)

/-- A body-less loop whose predicate answers true `k` times and then false
finishes once the fuel exceeds `k`: the predicate is invoked `k + 1` times on
the unchanged state, then the state goes to the continuation. -/
theorem no_body_run {W S : Type} (t : loop_task W S) (hbody : t.body = none) (s : S)
    (k : Nat) :
    ∀ (w0 : W) (fuel : Nat),
      (∀ i < k, (t.predicate ((fun w => (t.predicate w s).2)^[i] w0) s).1 = true) →
      (t.predicate ((fun w => (t.predicate w s).2)^[k] w0) s).1 = false →
      k < fuel →
      t.run fuel w0 s =
        some { state := s, world := (fun w => (t.predicate w s).2)^[k + 1] w0,
               log := List.replicate (k + 1) (loop_call.predicate s) ++
                 [loop_call.continuation s] } := by
  induction k with
  | zero =>
    intro w0 fuel _ hfalse hfuel
    obtain ⟨m, rfl⟩ : ∃ m, fuel = m + 1 := ⟨fuel - 1, by omega⟩
    have hp : (t.predicate w0 s).1 = false := by simpa using hfalse
    simp [loop_task.run, hp]
  | succ k ih =>
    intro w0 fuel htrue hfalse hfuel
    obtain ⟨m, rfl⟩ : ∃ m, fuel = m + 1 := ⟨fuel - 1, by omega⟩
    have hp : (t.predicate w0 s).1 = true := by simpa using htrue 0 (Nat.succ_pos k)
    have hrec := ih (t.predicate w0 s).2 m
      (fun i hi => by
        have := htrue (i + 1) (Nat.succ_lt_succ hi)
        simpa [Function.iterate_succ_apply] using this)
      (by simpa [Function.iterate_succ_apply] using hfalse)
      (by omega)
    simp [loop_task.run, hp, hbody, hrec, Function.iterate_succ_apply, List.replicate_succ]

/-- C15: a body-less loop task whose predicate returns true on its first `k`
invocations and false on invocation `k + 1`, run with more fuel than `k`,
finishes: its calls are `k + 1` invocations of the predicate on the unchanged
state followed by one hand-over of that state to the continuation, and nothing
after it. -/
theorem loop_without_body {W S : Type} (t : loop_task W S) (s : S) (w0 : W) (k fuel : Nat)
    (hbody : t.body = none)
    (htrue : ∀ i < k, (t.predicate ((fun w => (t.predicate w s).2)^[i] w0) s).1 = true)
    (hfalse : (t.predicate ((fun w => (t.predicate w s).2)^[k] w0) s).1 = false)
    (hfuel : k < fuel) :
    ∃ out, t.run fuel w0 s = some out ∧
      out.state = s ∧
      out.log = List.replicate (k + 1) (loop_call.predicate s) ++ [loop_call.continuation s] ∧
      out.log.countP loop_call.is_predicate = k + 1 ∧
      out.log.countP loop_call.is_body = 0 ∧
      out.log.countP loop_call.is_continuation = 1 := by
  refine ⟨_, no_body_run t hbody s k w0 fuel htrue hfalse hfuel, rfl, rfl, ?_, ?_, ?_⟩
  · simp [List.countP_append, List.countP_replicate, loop_call.is_predicate]
  · simp [List.countP_append, List.countP_replicate, loop_call.is_body]
  · simp [List.countP_append, List.countP_replicate, loop_call.is_continuation]

/-- Witness of C15: the predicate of the test increments the counter of its
runner and returns `counter < 100`; it is invoked 100 times. -/
theorem loop_without_body_witness :
    ∃ out, test_no_body_count.run 100 (0, 0) () = some out ∧
      out.state = () ∧
      out.log = List.replicate (99 + 1) (loop_call.predicate ()) ++
        [loop_call.continuation ()] ∧
      out.log.countP loop_call.is_predicate = 99 + 1 ∧
      out.log.countP loop_call.is_body = 0 ∧
      out.log.countP loop_call.is_continuation = 1 :=
  loop_without_body test_no_body_count () (0, 0) 99 100 rfl (by decide) (by decide) (by decide)

end cool.ng
